import Mathlib

/-!
# Verification of the sequin query-compilation and database-facade layer

Shallow embedding of `src/server/src/db/sequin` (schema model, condition
compiler, command compilers, database facade concurrency discipline) and
proofs about the embedded definitions.

Conventions:
* TS objects / `Record<string, T>` are embedded as association lists
  `List (String × T)`; JS property access takes the first matching key.
* TS functions that `throw` are embedded with `Except String`.
* The SQL expression trees built through the kysely expression builder are
  embedded as an explicit `SqlExpr` syntax tree (kysely itself only assembles
  such a tree from exactly these calls).
-/

set_option maxHeartbeats 1000000

/-! ## Schema model (`types/schema.ts`) -/

/-- Vector element kind (`DBVector.dtype`): `"f32" | "i8"`. -/
inductive VecDtype
  | f32
  | i8
deriving DecidableEq, Repr

/-- The `type` tag of a column (`DBColumnType` variants in `types/schema.ts`). -/
inductive DBColumnKind
  | number
  | boolean
  | string
  | bytes
  | fullTextString
  | json
  | stringArray
  | foreignKey (table : String)
  | vector (dim : Nat) (dtype : VecDtype)
deriving DecidableEq, Repr

/-- A column type: its kind plus the `noReplaceOnUpsert` flag
(`BaseDBTypeFlags.noReplaceOnUpsert`, absent = `false`). -/
structure DBColumnType where
  kind : DBColumnKind
  noReplaceOnUpsert : Bool
deriving DecidableEq, Repr

/-- A table: ordered columns (JS object key order) plus the primary key name
(`DBTable` in `types/schema.ts`). -/
structure DBTable where
  columns : List (String × DBColumnType)
  primaryKey : String
deriving DecidableEq, Repr

/-- A schema: ordered mapping table name → table (`DBSchema`). -/
abbrev DBSchema : Type := List (String × DBTable)

/-- JS object property access on an association list: first matching key. -/
def lookupKey {α : Type} (m : List (String × α)) (k : String) : Option α :=
  (m.find? (fun p => p.1 = k)).map (fun p => p.2)

/-! ## String splitting helpers

JS `String.prototype.split` with a one-character separator (respectively a
one-character regex class), implemented structurally on the character list:
`""` splits to `[""]`, and consecutive separators produce empty pieces —
exactly the JS behaviour. -/

/-- Split a character list at every character satisfying `p`. -/
def splitOnPredList (p : Char → Bool) : List Char → List (List Char)
  | [] => [[]]
  | c :: cs =>
      let r := splitOnPredList p cs
      if p c then [] :: r
      else
        match r with
        | [] => [[c]]
        | x :: xs => (c :: x) :: xs

/-- JS `s.split(sep)` for a one-character separator string. -/
def splitOnChar (sep : Char) (s : String) : List String :=
  (splitOnPredList (fun c => c = sep) s.data).map String.mk

/-- JS `s.split(regex)` for a one-character class regex. -/
def splitOnPred (p : Char → Bool) (s : String) : List String :=
  (splitOnPredList p s.data).map String.mk

/-! ## Values and rows -/

/-- Runtime values flowing through rows and SQL parameters.  `jsonText` is a
value wrapped in the SQL `json(...)` function at statement-compile time
(`jsonSerializeColumnsForInsert`); `vec` is a typed numeric array
(`Float32Array`/`Int8Array`); `buf` is its raw `.buffer`. -/
inductive DBValue
  | null
  | int (n : Int)
  | real (q : ℚ)
  | str (s : String)
  | boolean (b : Bool)
  | arr (xs : List String)
  | jsonText (s : String)
  | vec (xs : List Int)
  | buf (xs : List Int)
deriving DecidableEq, Repr

/-- A row: ordered field list (JS object). -/
abbrev Row : Type := List (String × DBValue)

/-- Row field access (`row[column]`). -/
def rowLookup (r : Row) (c : String) : Option DBValue :=
  lookupKey r c

/-! ## Naming conventions (`sqlite/naming.ts`) -/

def getFTS5VirtualTableName (tableName : String) : String :=
  tableName ++ "_fts5"

def getVectorVirtualTableName (tableName : String) : String :=
  tableName ++ "_vector"

def getForeignKeyConstraintName (tableName columnName : String) : String :=
  tableName ++ "_" ++ columnName ++ "_fk"

def getPrimaryKeyConstraintName (tableName : String) : String :=
  tableName ++ "_pk"

def VTABLE_COLUMN_ORIGINPK : String := "originPK"

def getVectorDistanceColumnName (columnName : String) : String :=
  "$distance_" ++ columnName

/-! ## Column helpers (`sqlite/util.ts`) -/

/-- `getFullTextColumns`: names of the table's full-text columns, in
declaration order. -/
def getFullTextColumns (table : DBTable) : List String :=
  (table.columns.filter (fun p => p.2.kind = DBColumnKind.fullTextString)).map (fun p => p.1)

/-- `getVectorColumns`: names of the table's vector columns. -/
def getVectorColumns (table : DBTable) : List String :=
  (table.columns.filter (fun p =>
    match p.2.kind with
    | DBColumnKind.vector _ _ => true
    | _ => false)).map (fun p => p.1)

/-- `filterNonVirtualColumns`: the row's entries whose column is neither
full-text nor vector.  (TS indexes `table.columns[columnName].type` and would
crash on a key absent from the schema; rows are statically typed to the
table's columns, so we drop unknown keys.) -/
def filterNonVirtualColumns (row : Row) (table : DBTable) : Row :=
  row.filter (fun p =>
    match lookupKey table.columns p.1 with
    | some ct =>
        match ct.kind with
        | DBColumnKind.fullTextString => false
        | DBColumnKind.vector _ _ => false
        | _ => true
    | none => false)

/-- `filterFullTextColumns`. -/
def filterFullTextColumns (row : Row) (table : DBTable) : Row :=
  row.filter (fun p =>
    match lookupKey table.columns p.1 with
    | some ct => decide (ct.kind = DBColumnKind.fullTextString)
    | none => false)

/-- Serialization of one vector value: `(value as Float32Array | Int8Array).buffer`. -/
def serializeVectorValue (v : DBValue) : DBValue :=
  match v with
  | DBValue.vec xs => DBValue.buf xs
  | v => v

/-- `filterAndSerializeVectorColumns`. -/
def filterAndSerializeVectorColumns (row : Row) (table : DBTable) : Row :=
  (row.filter (fun p =>
    match lookupKey table.columns p.1 with
    | some ct =>
        match ct.kind with
        | DBColumnKind.vector _ _ => true
        | _ => false
    | none => false)).map (fun p => (p.1, serializeVectorValue p.2))

/-- A deterministic stand-in for `JSON.stringify` on the values that reach it
(string-array and json columns).  The exact text is irrelevant to the claims;
what matters is that the value is turned into a JSON string wrapped in the SQL
`json(...)` function. -/
def jsonStringify (v : DBValue) : String :=
  match v with
  | DBValue.null => "null"
  | DBValue.int n => toString n
  | DBValue.real q => toString q
  | DBValue.str s => "\"" ++ s ++ "\""
  | DBValue.boolean b => if b then "true" else "false"
  | DBValue.arr xs => "[" ++ String.intercalate "," (xs.map (fun s => "\"" ++ s ++ "\"")) ++ "]"
  | DBValue.jsonText s => s
  | DBValue.vec _ => "[]"
  | DBValue.buf _ => "[]"

/-- `jsonSerializeColumnsForInsert`: wraps values of `stringArray`/`json`
columns in `sql·json(JSON.stringify(value))·`; missing column metadata
(`column?.type`) leaves the value untouched. -/
def jsonSerializeColumnsForInsert (schema : DBSchema) (tableName : String) (values : Row) : Row :=
  values.map (fun p =>
    match lookupKey schema tableName with
    | some table =>
        match lookupKey table.columns p.1 with
        | some ct =>
            if ct.kind = DBColumnKind.stringArray ∨ ct.kind = DBColumnKind.json then
              (p.1, DBValue.jsonText (jsonStringify p.2))
            else p
        | none => p
    | none => p)

/-- JS `String.prototype.replace` with a *string* pattern (here always a
one-character pattern): replaces only the first occurrence of `pat`. -/
def replaceFirst (s : String) (pat : Char) (repl : String) : String :=
  match splitOnChar pat s with
  | [] => s
  | [x] => x
  | x :: rest => x ++ repl ++ String.intercalate (String.mk [pat]) rest

/-- `normalizeString` (`sqlite/util.ts`): folds smart quotes / apostrophes to
their ASCII equivalents.  Each `.replace` call uses a string pattern, hence
replaces only the first occurrence. -/
def normalizeString (s : String) : String :=
  replaceFirst (replaceFirst (replaceFirst (replaceFirst s '”' "\"") '“' "\"") '’' "'") '‘' "'"

/-- `normalizeStringValues`: applies `normalizeString` to each value (the TS
signature guarantees string values; non-strings are left unchanged here). -/
def normalizeStringValues (values : Row) : Row :=
  values.map (fun p =>
    match p.2 with
    | DBValue.str s => (p.1, DBValue.str (normalizeString s))
    | v => (p.1, v))

/-! ## Condition trees (`types/query.ts`) -/

/-- `Condition`: leaf comparison, AND-group, OR-group. -/
inductive Condition
  | whereLeaf (ref : String) (operation : String) (value : DBValue)
  | all (conditions : List Condition)
  | any (conditions : List Condition)

/-- `KNNVectorQuery`: partial map vector column → query vector, plus `k`. -/
structure VectorQuerySpec where
  queryVectors : List (String × List Int)
  k : Nat
deriving DecidableEq, Repr

/-- `Query<T>`: table, optional condition, optional sort, optional vector query. -/
structure QueryDescr where
  tableName : String
  condition : Option Condition
  sortBy : Option (String × Bool)
  vectorQuery : Option VectorQuerySpec

/-! ## Compiled SQL predicate fragments (`sqlite/selectors.ts`)

The kysely expression-builder calls made by `selectors.ts` assemble the
following syntax tree. -/

/-- Subqueries appearing inside compiled predicates. -/
inductive SubQuery
  | ftsMatch (ftsTable : String) (selectColumn : String) (whereColumn : String) (matchArg : String)
  | ftsLike (ftsTable : String) (selectColumn : String) (whereColumn : String) (pattern : String)
  | jsonEachEq (sourceColumn : String) (value : DBValue)
  | jsonEachIn (sourceColumn : String) (values : List String)
  | jsonEachAny (sourceColumn : String)
deriving DecidableEq, Repr

/-- Compiled predicate fragments. -/
inductive SqlExpr
  | binop (column : String) (op : String) (value : DBValue)
  | binopRaw (rawLhs : String) (op : String) (value : DBValue)
  | inSub (column : String) (sub : SubQuery)
  | existsSub (sub : SubQuery)
  | notE (e : SqlExpr)
  | andE (es : List SqlExpr)
  | orE (es : List SqlExpr)

/-- `ColumnInfo` in `selectors.ts`: resolved physical column. -/
structure ColumnInfo where
  tableName : String
  columnName : String
  columnType : DBColumnType
deriving DecidableEq, Repr

/-- `handleArrayOperation`: string-array operators; unknown operator throws
`Unsupported array operator`. -/
def handleArrayOperation (column : ColumnInfo) (operator : String) (value : DBValue) :
    Except String SqlExpr :=
  let fullColumnName := column.tableName ++ "." ++ column.columnName
  match operator with
  | "contains" => Except.ok (SqlExpr.existsSub (SubQuery.jsonEachEq fullColumnName value))
  | "doesNotContain" =>
      Except.ok (SqlExpr.notE (SqlExpr.existsSub (SubQuery.jsonEachEq fullColumnName value)))
  | "containsAllOf" =>
      let values := match value with | DBValue.arr xs => xs | _ => []
      Except.ok (SqlExpr.andE (values.map (fun v =>
        SqlExpr.existsSub (SubQuery.jsonEachEq fullColumnName (DBValue.str v)))))
  | "containsAnyOf" =>
      let values := match value with | DBValue.arr xs => xs | _ => []
      Except.ok (SqlExpr.existsSub (SubQuery.jsonEachIn fullColumnName values))
  | "nonEmpty" => Except.ok (SqlExpr.existsSub (SubQuery.jsonEachAny fullColumnName))
  | "isEmpty" =>
      Except.ok (SqlExpr.notE (SqlExpr.existsSub (SubQuery.jsonEachAny fullColumnName)))
  | _ => Except.error ("Unsupported array operator: " ++ operator)

/-- The token string passed to the FTS5 `match` operator for `matches`:
`value.split(" ").filter(Boolean).map(word => quoted).join(" ")`.
JS `split(" ")` splits on the space character only. -/
def matchesTokenArg (value : String) : String :=
  String.intercalate " "
    (((splitOnChar ' ' value).filter (fun w => w ≠ "")).map (fun w => "\"" ++ w ++ "\""))

/-- Strip-whitespace step of `flexiblyMatches`: JS `value.replace(/\s/g, "")`. -/
def stripWhitespace (value : String) : String :=
  String.mk (value.data.filter (fun c => !c.isWhitespace))

/-- Interleaved `%` LIKE pattern of `flexiblyMatches`:
`"%" + chars.join("%") + "%"`. -/
def flexPattern (value : String) : String :=
  "%" ++ String.intercalate "%" ((stripWhitespace value).data.map (fun c => String.mk [c])) ++ "%"

/-- `handleFullTextOperation`: `matches` / `flexiblyMatches`.  Any other
operator falls off the end of the function and returns `undefined` (here:
`none`) — no error is raised. -/
def handleFullTextOperation (column : ColumnInfo) (operator : String) (value : String) :
    Option SqlExpr :=
  let fts5TableName := getFTS5VirtualTableName column.tableName
  if operator = "matches" then
    let mainMatch := SqlExpr.inSub (fts5TableName ++ "." ++ VTABLE_COLUMN_ORIGINPK)
      (SubQuery.ftsMatch fts5TableName VTABLE_COLUMN_ORIGINPK
        (fts5TableName ++ "." ++ column.columnName) (matchesTokenArg value))
    if value.length ≥ 3 then some mainMatch
    else some (SqlExpr.inSub (fts5TableName ++ "." ++ VTABLE_COLUMN_ORIGINPK)
      (SubQuery.ftsLike fts5TableName VTABLE_COLUMN_ORIGINPK
        (fts5TableName ++ "." ++ column.columnName) (value ++ "%")))
  else if operator = "flexiblyMatches" then
    some (SqlExpr.inSub (fts5TableName ++ "." ++ VTABLE_COLUMN_ORIGINPK)
      (SubQuery.ftsLike fts5TableName VTABLE_COLUMN_ORIGINPK
        (fts5TableName ++ "." ++ column.columnName) (flexPattern value)))
  else
    none

/-- `handleVectorDistanceOperation`: compiles *any* operator to a comparison of
the distance pseudo-column — `<` when the operator is `lessThan`, `>` for every
other operator, without validation. -/
def handleVectorDistanceOperation (column : ColumnInfo) (operator : String) (value : DBValue) :
    SqlExpr :=
  SqlExpr.binop (getVectorDistanceColumnName column.columnName)
    (if operator = "lessThan" then "<" else ">") value

/-- The `operatorMap` of `handleColumnOperation`. -/
def operatorMap : List (String × String) :=
  [("equals", "="), ("notEquals", "!="), ("greaterThan", ">"), ("lessThan", "<"),
   ("greaterThanOrEqual", ">="), ("lessThanOrEqual", "<="), ("in", "in"), ("notIn", "not in")]

/-- JS `toLowerCase` (ASCII approximation, sufficient here). -/
def jsToLower (s : String) : String :=
  String.mk (s.data.map Char.toLower)

/-- `handleColumnOperation`: dispatches on the resolved column kind.  Returns
`Except.ok none` exactly when the TS function returns `undefined` (the
full-text path with an unsupported operator). -/
def handleColumnOperation (column : ColumnInfo) (operator : String) (value : DBValue) :
    Except String (Option SqlExpr) :=
  match column.columnType.kind with
  | DBColumnKind.stringArray => (handleArrayOperation column operator value).map some
  | DBColumnKind.fullTextString =>
      Except.ok (handleFullTextOperation column operator
        (match value with | DBValue.str s => s | _ => ""))
  | DBColumnKind.vector _ _ =>
      Except.ok (some (handleVectorDistanceOperation column operator value))
  | _ =>
    let fullColumnName := column.tableName ++ "." ++ column.columnName
    if operator = "equalsAnyOf" then
      Except.ok (some (SqlExpr.binop fullColumnName "in" value))
    else if operator = "notEqualsAnyOf" then
      Except.ok (some (SqlExpr.binop fullColumnName "not in" value))
    else if operator = "contains" ∨ operator = "notContains" then
      if column.columnType.kind ≠ DBColumnKind.string then
        Except.error "Only string columns can be used with the contains operator"
      else
        let s := match value with | DBValue.str s => s | _ => ""
        let condition := SqlExpr.binopRaw ("lower(" ++ fullColumnName ++ ")") "like"
          (DBValue.str ("%" ++ jsToLower s ++ "%"))
        Except.ok (some (if operator = "contains" then condition else SqlExpr.notE condition))
    else if operator = "flexiblyMatches" then
      if column.columnType.kind ≠ DBColumnKind.string then
        Except.error "Only string columns can be used with the flexiblyMatches operator"
      else
        let s := match value with | DBValue.str s => s | _ => ""
        Except.ok (some (SqlExpr.binopRaw ("lower(" ++ fullColumnName ++ ")") "like"
          (DBValue.str (flexPattern s))))
    else
      match lookupKey operatorMap operator with
      | some sqlOperator => Except.ok (some (SqlExpr.binop fullColumnName sqlOperator value))
      | none => Except.error ("Unknown operator: " ++ operator)

/-! ## Compiled commands (`sqlite/cmd*.ts`)

Each command compiler returns an ordered list of statements.  The statements
are embedded structurally (the kysely builders assemble exactly these shapes
before text generation). -/

/-- `ON CONFLICT` clause of the upsert insert. -/
inductive ConflictPolicy
  | updateSet (conflictColumn : String) (updateColumns : List String)
  | doNothing
deriving DecidableEq, Repr

/-- A named foreign-key constraint of a `CREATE TABLE`. -/
structure FKConstraintSpec where
  name : String
  column : String
  targetTable : String
  targetColumn : String
deriving DecidableEq, Repr

/-- A vector temp-table (`<column>_matches` CTE) of a select. -/
structure TempTableSpec where
  tempTableName : String
  columnName : String
deriving DecidableEq, Repr

/-- Structural description of a compiled `SELECT` (`cmdSelect`): the vector
CTEs, the `coalesce(<tempTable>.distance, 1e999) as $distance_<col>` output
columns, whether all FTS shadow columns are selected, limit and sort.  (The
join/predicate compilation is the selectors embedding above.) -/
structure SelectDescr where
  table : String
  tempTables : List TempTableSpec
  distanceSelects : List (String × String)
  selectFtsAll : Bool
  limit : Option Nat
  sortBy : Option (String × Bool)
deriving DecidableEq, Repr

/-- A compiled statement. -/
inductive Cmd
  | insertValues (table : String) (rows : List Row)
  | insertOnConflict (table : String) (rows : List Row) (policy : ConflictPolicy)
  | updateSetWhereEq (table : String) (sets : Row) (whereColumn : String) (key : DBValue)
  | deleteWhereIn (table : String) (column : String) (keys : List DBValue)
  | createTable (table : String) (columnDefs : List (String × String))
      (fks : List FKConstraintSpec) (pkConstraintName : String) (pkColumn : String)
  | createFTS5 (table : String) (originColumn : String) (columns : List String) (tokenize : String)
  | createVec (table : String) (originColumn : String) (originType : String)
      (columnDefs : List (String × String))
  | deleteOrphans (vtable : String) (mainTable : String) (mainPkRef : String)
  | statCount (table : String)
  | selectQ (d : SelectDescr)
  | selectByPks (table : String) (pks : List DBValue)
deriving DecidableEq, Repr

/-- The physical table a statement targets. -/
def cmdTable (c : Cmd) : String :=
  match c with
  | Cmd.insertValues t _ => t
  | Cmd.insertOnConflict t _ _ => t
  | Cmd.updateSetWhereEq t _ _ _ => t
  | Cmd.deleteWhereIn t _ _ => t
  | Cmd.createTable t _ _ _ _ => t
  | Cmd.createFTS5 t _ _ _ => t
  | Cmd.createVec t _ _ _ => t
  | Cmd.deleteOrphans t _ _ => t
  | Cmd.statCount t => t
  | Cmd.selectQ d => d.table
  | Cmd.selectByPks t _ => t

/-- The primary-key value of a row, as bound into shadow-table statements
(`row[table.primaryKey]`). -/
def rowPkValue (table : DBTable) (row : Row) : DBValue :=
  (rowLookup row table.primaryKey).getD DBValue.null

/-! ### `cmdInsert.ts` -/

/-- `cmdInsert`: main-table insert, then FTS5 shadow insert (values
normalized via `normalizeStringValues`) if the table has full-text columns,
then vector shadow insert if it has vector columns. -/
def cmdInsert (tableName : String) (row : Row) (schema : DBSchema) : List Cmd :=
  match lookupKey schema tableName with
  | none => []
  | some table =>
    let mainInsert := Cmd.insertValues tableName
      [jsonSerializeColumnsForInsert schema tableName (filterNonVirtualColumns row table)]
    let commands := [mainInsert]
    let commands :=
      if (getFullTextColumns table).length > 0 then
        commands ++ [Cmd.insertValues (getFTS5VirtualTableName tableName)
          [(VTABLE_COLUMN_ORIGINPK, rowPkValue table row) ::
            normalizeStringValues (filterFullTextColumns row table)]]
      else commands
    let commands :=
      if (getVectorColumns table).length > 0 then
        commands ++ [Cmd.insertValues (getVectorVirtualTableName tableName)
          [(VTABLE_COLUMN_ORIGINPK, rowPkValue table row) ::
            filterAndSerializeVectorColumns row table]]
      else commands
    commands

/-- `cmdInsertMany`: bulk variant.  Note: unlike `cmdInsert`, the FTS5 shadow
values are *not* passed through `normalizeStringValues`. -/
def cmdInsertMany (tableName : String) (rows : List Row) (schema : DBSchema) : List Cmd :=
  match lookupKey schema tableName with
  | none => []
  | some table =>
    let mainInsert := Cmd.insertValues tableName
      (rows.map (fun row =>
        jsonSerializeColumnsForInsert schema tableName (filterNonVirtualColumns row table)))
    let commands := [mainInsert]
    let commands :=
      if (getFullTextColumns table).length > 0 then
        commands ++ [Cmd.insertValues (getFTS5VirtualTableName tableName)
          (rows.map (fun row =>
            (VTABLE_COLUMN_ORIGINPK, rowPkValue table row) :: filterFullTextColumns row table))]
      else commands
    let commands :=
      if (getVectorColumns table).length > 0 then
        commands ++ [Cmd.insertValues (getVectorVirtualTableName tableName)
          (rows.map (fun row =>
            (VTABLE_COLUMN_ORIGINPK, rowPkValue table row) ::
              filterAndSerializeVectorColumns row table))]
      else commands
    commands

/-! ### `cmdUpsert.ts` -/

/-- The columns of the `DO UPDATE SET` clause: non-virtual columns that are
not flagged `noReplaceOnUpsert` and are not the primary key
(`relevantUpdateOnConflictColumns` in `cmdUpsertMany`). -/
def relevantUpdateOnConflictColumns (table : DBTable) : List (String × DBColumnType) :=
  (table.columns.filter (fun p =>
    match p.2.kind with
    | DBColumnKind.fullTextString => false
    | DBColumnKind.vector _ _ => false
    | _ => true)).filter (fun p => !p.2.noReplaceOnUpsert && p.1 ≠ table.primaryKey)

/-- `cmdUpsertMany`: main-table `INSERT ... ON CONFLICT(pk) DO UPDATE SET`
(or `DO NOTHING` when no column is eligible), then delete+insert pairs for the
FTS5 and vector shadow tables. -/
def cmdUpsertMany (tableName : String) (rows : List Row) (schema : DBSchema) : List Cmd :=
  match lookupKey schema tableName with
  | none => []
  | some table =>
    if rows.length = 0 then []
    else
      let mainValues := rows.map (fun row =>
        jsonSerializeColumnsForInsert schema tableName (filterNonVirtualColumns row table))
      let eligible := relevantUpdateOnConflictColumns table
      let mainUpsert := Cmd.insertOnConflict tableName mainValues
        (if eligible.length > 0 then
          ConflictPolicy.updateSet table.primaryKey (eligible.map (fun p => p.1))
        else ConflictPolicy.doNothing)
      let commands := [mainUpsert]
      let pks := rows.map (fun row => rowPkValue table row)
      let commands :=
        if (getFullTextColumns table).length > 0 then
          commands ++
            [Cmd.deleteWhereIn (getFTS5VirtualTableName tableName) VTABLE_COLUMN_ORIGINPK pks,
             Cmd.insertValues (getFTS5VirtualTableName tableName)
               (rows.map (fun row =>
                 (VTABLE_COLUMN_ORIGINPK, rowPkValue table row) ::
                   normalizeStringValues (filterFullTextColumns row table)))]
        else commands
      let commands :=
        if (getVectorColumns table).length > 0 then
          commands ++
            [Cmd.deleteWhereIn (getVectorVirtualTableName tableName) VTABLE_COLUMN_ORIGINPK pks,
             Cmd.insertValues (getVectorVirtualTableName tableName)
               (rows.map (fun row =>
                 (VTABLE_COLUMN_ORIGINPK, rowPkValue table row) ::
                   filterAndSerializeVectorColumns row table))]
        else commands
      commands

/-! ### `cmdUpdate` / `cmdUpdateMany` (in `cmdInsert.ts`) -/

/-- `cmdUpdate`: main-table update, FTS5 shadow update only when the payload
contains a full-text column, and a vector shadow update whenever the table has
vector columns (regardless of the payload). -/
def cmdUpdate (tableName : String) (pk : DBValue) (update : Row) (schema : DBSchema) : List Cmd :=
  match lookupKey schema tableName with
  | none => []
  | some table =>
    let mainUpdate := Cmd.updateSetWhereEq tableName
      (jsonSerializeColumnsForInsert schema tableName (filterNonVirtualColumns update table))
      table.primaryKey pk
    let commands := [mainUpdate]
    let commands :=
      if (getFullTextColumns table).length > 0 then
        let fts5Values := filterFullTextColumns update table
        if fts5Values.length > 0 then
          commands ++ [Cmd.updateSetWhereEq (getFTS5VirtualTableName tableName)
            (normalizeStringValues fts5Values) VTABLE_COLUMN_ORIGINPK pk]
        else commands
      else commands
    let commands :=
      if (getVectorColumns table).length > 0 then
        commands ++ [Cmd.updateSetWhereEq (getVectorVirtualTableName tableName)
          (filterAndSerializeVectorColumns update table) VTABLE_COLUMN_ORIGINPK pk]
      else commands
    commands

/-- `cmdUpdateMany`: per-row main updates, per-row FTS5 updates only for rows
whose payload contains a full-text column (and without normalization, unlike
`cmdUpdate`), and per-row vector updates whenever the table has vector
columns. -/
def cmdUpdateMany (tableName : String) (rows : List Row) (schema : DBSchema) : List Cmd :=
  match lookupKey schema tableName with
  | none => []
  | some table =>
    if rows.length = 0 then []
    else
      let mainUpdates := rows.map (fun row =>
        Cmd.updateSetWhereEq tableName
          (jsonSerializeColumnsForInsert schema tableName (filterNonVirtualColumns row table))
          table.primaryKey (rowPkValue table row))
      let commands := mainUpdates
      let commands :=
        if (getFullTextColumns table).length > 0 then
          commands ++ (rows.filterMap (fun row =>
            let fts5Values := filterFullTextColumns row table
            if fts5Values.length > 0 then
              some (Cmd.updateSetWhereEq (getFTS5VirtualTableName tableName) fts5Values
                VTABLE_COLUMN_ORIGINPK (rowPkValue table row))
            else none))
        else commands
      let commands :=
        if (getVectorColumns table).length > 0 then
          commands ++ (rows.map (fun row =>
            Cmd.updateSetWhereEq (getVectorVirtualTableName tableName)
              (filterAndSerializeVectorColumns row table)
              VTABLE_COLUMN_ORIGINPK (rowPkValue table row)))
        else commands
      commands

/-! ### `cmdDelete.ts` -/

/-- `cmdDeleteMany`: empty for an empty key set; otherwise main-table delete
plus a delete per existing shadow table. -/
def cmdDeleteMany (tableName : String) (pks : List DBValue) (schema : DBSchema) : List Cmd :=
  match lookupKey schema tableName with
  | none => []
  | some table =>
    if pks.length = 0 then []
    else
      let commands := [Cmd.deleteWhereIn tableName table.primaryKey pks]
      let commands :=
        if (getFullTextColumns table).length > 0 then
          commands ++
            [Cmd.deleteWhereIn (getFTS5VirtualTableName tableName) VTABLE_COLUMN_ORIGINPK pks]
        else commands
      let commands :=
        if (getVectorColumns table).length > 0 then
          commands ++
            [Cmd.deleteWhereIn (getVectorVirtualTableName tableName) VTABLE_COLUMN_ORIGINPK pks]
        else commands
      commands

/-! ### `cmdGC.ts` -/

/-- `cmdGarbageCollectSingleTable`. -/
def cmdGarbageCollectSingleTable (schema : DBSchema) (table : String) : List Cmd :=
  match lookupKey schema table with
  | none => []
  | some tableSchema =>
    let pkName := table ++ "." ++ tableSchema.primaryKey
    let commands : List Cmd := []
    let commands :=
      if (getFullTextColumns tableSchema).length > 0 then
        commands ++ [Cmd.deleteOrphans (getFTS5VirtualTableName table) table pkName]
      else commands
    let commands :=
      if (getVectorColumns tableSchema).length > 0 then
        commands ++ [Cmd.deleteOrphans (getVectorVirtualTableName table) table pkName]
      else commands
    commands

/-- `cmdGarbageCollectAllTables`. -/
def cmdGarbageCollectAllTables (schema : DBSchema) : List Cmd :=
  schema.flatMap (fun p => cmdGarbageCollectSingleTable schema p.1)

/-! ### `cmdStat.ts` -/

/-- `cmdStat`: row-count query for one physical table. -/
def cmdStat (table : String) : Cmd :=
  Cmd.statCount table

/-! ### Create-table commands (`cmdCreateTable.ts` section of `cmdInsert.ts`) -/

/-- `typeofColumn`: SQLite type of a column.  Foreign keys resolve
transitively to the referenced table's primary-key type; the TS recursion is
bounded here by a fuel parameter (a foreign-key cycle would not terminate in
TS either).  Full-text and vector columns throw. -/
def typeofColumn (fuel : Nat) (column : DBColumnType) (schema : DBSchema) :
    Except String String :=
  match column.kind with
  | DBColumnKind.string => Except.ok "text"
  | DBColumnKind.number => Except.ok "integer"
  | DBColumnKind.boolean => Except.ok "boolean"
  | DBColumnKind.bytes => Except.ok "blob"
  | DBColumnKind.fullTextString =>
      Except.error "Full-text columns should not be used in CREATE TABLE statements"
  | DBColumnKind.stringArray => Except.ok "json"
  | DBColumnKind.json => Except.ok "json"
  | DBColumnKind.foreignKey tgt =>
      match fuel with
      | 0 => Except.error "foreign-key resolution exceeded recursion fuel"
      | fuel + 1 =>
          match lookupKey schema tgt with
          | none => Except.error ("unknown foreign-key target table: " ++ tgt)
          | some foreignKeyTable =>
              match lookupKey foreignKeyTable.columns foreignKeyTable.primaryKey with
              | none => Except.error ("unknown primary key of table: " ++ tgt)
              | some ct => typeofColumn fuel ct schema
  | DBColumnKind.vector _ _ =>
      Except.error "Vectors should not be used in CREATE TABLE statements"

/-- `createTableCommand`: throws on a full-text primary key; emits a
`CREATE TABLE IF NOT EXISTS` over the non-full-text, non-vector columns with
named foreign-key constraints (cascading delete) and a named primary-key
constraint. -/
def createTableCommand (tableName : String) (schema : DBSchema) : Except String Cmd :=
  match lookupKey schema tableName with
  | none => Except.error ("unknown table: " ++ tableName)
  | some table =>
      match lookupKey table.columns table.primaryKey with
      | none => Except.error ("unknown primary-key column of table: " ++ tableName)
      | some pkct =>
          if pkct.kind = DBColumnKind.fullTextString then
            Except.error "Primary key cannot be a full-text column"
          else
            let relevantColumns := table.columns.filter (fun p =>
              match p.2.kind with
              | DBColumnKind.fullTextString => false
              | DBColumnKind.vector _ _ => false
              | _ => true)
            (relevantColumns.mapM (fun (p : String × DBColumnType) =>
              (typeofColumn (schema.length + 1) p.2 schema).map (fun ty => (p.1, ty)))).bind
              (fun columnDefs =>
                ((relevantColumns.filterMap (fun (p : String × DBColumnType) =>
                  match p.2.kind with
                  | DBColumnKind.foreignKey tgt => some (p.1, tgt)
                  | _ => none)).mapM (fun (p : String × String) =>
                    match lookupKey schema p.2 with
                    | none => Except.error ("unknown foreign-key target table: " ++ p.2)
                    | some foreignKeyTable =>
                        Except.ok (FKConstraintSpec.mk
                          (getForeignKeyConstraintName tableName p.1) p.1 p.2
                          foreignKeyTable.primaryKey))).bind
                  (fun fks =>
                    Except.ok (Cmd.createTable tableName columnDefs fks
                      (getPrimaryKeyConstraintName tableName) table.primaryKey)))

/-- `createFTS5TableCommand`: `none` when the table has no full-text columns. -/
def createFTS5TableCommand (tableName : String) (schema : DBSchema) : Option Cmd :=
  match lookupKey schema tableName with
  | none => none
  | some table =>
      let relevantColumnNames := getFullTextColumns table
      if relevantColumnNames.length = 0 then none
      else some (Cmd.createFTS5 (getFTS5VirtualTableName tableName) VTABLE_COLUMN_ORIGINPK
        relevantColumnNames "trigram remove_diacritics 1")

/-- `createVectorTableCommand`: `none` when the table has no vector columns;
resolves the origin-pk physical type via `typeofColumn` (which throws for a
vector or full-text primary key). -/
def createVectorTableCommand (tableName : String) (schema : DBSchema) :
    Except String (Option Cmd) :=
  match lookupKey schema tableName with
  | none => Except.error ("unknown table: " ++ tableName)
  | some table =>
      let relevantColumns := table.columns.filter (fun p =>
        match p.2.kind with
        | DBColumnKind.vector _ _ => true
        | _ => false)
      if relevantColumns.length = 0 then Except.ok none
      else
        match lookupKey table.columns table.primaryKey with
        | none => Except.error ("unknown primary-key column of table: " ++ tableName)
        | some pkct =>
            (typeofColumn (schema.length + 1) pkct schema).bind (fun pkType =>
              Except.ok (some (Cmd.createVec (getVectorVirtualTableName tableName)
                VTABLE_COLUMN_ORIGINPK pkType
                (relevantColumns.map (fun p =>
                  match p.2.kind with
                  | DBColumnKind.vector dim VecDtype.i8 => (p.1, "int[" ++ toString dim ++ "]")
                  | DBColumnKind.vector dim VecDtype.f32 => (p.1, "float[" ++ toString dim ++ "]")
                  | _ => (p.1, ""))))))

/-- `cmdCreateTables`: per table, in schema order: main create, FTS5 create
(if any), vector create (if any).  Any thrown error aborts the whole
compilation with no commands returned. -/
def cmdCreateTables (schema : DBSchema) : Except String (List Cmd) :=
  schema.foldlM (fun acc p =>
    (createTableCommand p.1 schema).bind (fun c =>
      let acc := acc ++ [c]
      let acc :=
        match createFTS5TableCommand p.1 schema with
        | some f => acc ++ [f]
        | none => acc
      (createVectorTableCommand p.1 schema).bind (fun vc =>
        match vc with
        | some v => Except.ok (acc ++ [v])
        | none => Except.ok acc))) []

/-! ### `cmdSelect.ts` -/

/-- `vectorTempTables`: one `<column>_matches` CTE per vector column present
in the query-vector map, with the serialized query vector as parameter. -/
def vectorTempTables (query : QueryDescr) (schema : DBSchema) :
    List TempTableSpec × List DBValue :=
  match query.vectorQuery with
  | none => ([], [])
  | some vq =>
      match lookupKey schema query.tableName with
      | none => ([], [])
      | some table =>
          let vectorColumns := getVectorColumns table
          (vectorColumns.filterMap (fun c =>
            (lookupKey vq.queryVectors c).map (fun _ => TempTableSpec.mk (c ++ "_matches") c)),
           vectorColumns.filterMap (fun c =>
            (lookupKey vq.queryVectors c).map (fun v => DBValue.buf v)))

/-- `cmdSelect`: structural description of the compiled select — per temp
table a `coalesce("<tempTable>".distance, 1e999) as "$distance_<column>"`
output column, all FTS5 shadow columns when the table has full-text columns,
plus limit and order-by. -/
def cmdSelectModel (query : QueryDescr) (schema : DBSchema) (limit : Option Nat) : SelectDescr :=
  let tempTables := (vectorTempTables query schema).1
  SelectDescr.mk query.tableName tempTables
    (tempTables.map (fun tt =>
      (getVectorDistanceColumnName tt.columnName, tt.tempTableName)))
    (match lookupKey schema query.tableName with
     | some table => decide ((getFullTextColumns table).length > 0)
     | none => false)
    limit query.sortBy

/-- `cmdSelectByPrimaryKeys`: `WHERE pk IN (...)` select with FTS5 shadow
columns joined in when present. -/
def cmdSelectByPrimaryKeysModel (table : String) (_schema : DBSchema) (pks : List DBValue) : Cmd :=
  Cmd.selectByPks table pks

/-! ## Result-row evaluation and deserialization

The SQL engine is an external collaborator; the standard semantics of the
emitted `LEFT JOIN` + `coalesce` select is modelled here: `matchDist t` is the
`distance` value the engine computed for this row in temp table `t` (`none`
when the row is not among that CTE's top-k matches, making the left-joined
column NULL). -/

/-- The `1e999` literal appearing in the coalesce.  SQL numeric values are
modelled as rationals, where the literal denotes `10 ^ 999`. -/
def distanceSentinel : ℚ := 10 ^ (999 : ℕ)

/-- The `$distance_<col>` output fields of one result row:
`coalesce("<tempTable>".distance, 1e999)`. -/
def evalDistanceSelects (matchDist : String → Option ℚ) (d : SelectDescr) : Row :=
  d.distanceSelects.map (fun p =>
    (p.1, DBValue.real ((matchDist p.2).getD distanceSentinel)))

/-- One result row as returned by the engine for the compiled select: the
base (main + shadow) columns plus the computed distance columns. -/
def evalSelectRow (matchDist : String → Option ℚ) (baseRow : Row) (d : SelectDescr) : Row :=
  baseRow ++ evalDistanceSelects matchDist d

/-- The per-column step of `deserializeSpecialColumns`: JSON-decode a
string-array column, emit `$distance_<col> := row[$distance_<col>] ?? null`
for a vector column, copy any other column. -/
def deserializeColumnEntry (jsonParse : String → DBValue) (row : Row)
    (p : String × DBColumnType) : String × DBValue :=
  match p.2.kind with
  | DBColumnKind.stringArray =>
      (p.1, match rowLookup row p.1 with
        | some (DBValue.str s) => jsonParse s
        | some v => v
        | none => DBValue.null)
  | DBColumnKind.vector _ _ =>
      (getVectorDistanceColumnName p.1,
       (rowLookup row (getVectorDistanceColumnName p.1)).getD DBValue.null)
  | _ => (p.1, (rowLookup row p.1).getD DBValue.null)

/-- `deserializeSpecialColumns` (in `database.ts`): JSON-decodes string-array
columns, and for each vector column emits `$distance_<col> :=
row[$distance_<col>] ?? null`; other columns are copied.  `jsonParse` stands
for the external `JSON.parse`. -/
def deserializeSpecialColumns (jsonParse : String → DBValue) (schema : DBSchema)
    (table : String) (row : Row) : Row :=
  match lookupKey schema table with
  | none => []
  | some tableSchema =>
      tableSchema.columns.map (deserializeColumnEntry jsonParse row)

/-! ## Foreign-key resolution (`Database.resolveForeignKeys`)

The engine's visible state is modelled as a function from table name to the
stored rows; the `WHERE pk IN (...)` select is given its standard
semantics. -/

/-- JS `new Set(xs)` iterated back into an array: first occurrences, in
order. -/
def jsSetDedup : List (Option DBValue) → List (Option DBValue)
  | [] => []
  | x :: xs => x :: jsSetDedup (xs.filter (fun y => y ≠ x))
termination_by l => l.length
decreasing_by
  simp only [List.length_cons]
  exact Nat.lt_succ_of_le (List.length_filter_le _ _)

/-- `foreignKeyColumnNames`: columns whose type has a `table` field. -/
def foreignKeyColumnNames (tableSchema : DBTable) : List String :=
  (tableSchema.columns.filter (fun p =>
    match p.2.kind with
    | DBColumnKind.foreignKey _ => true
    | _ => false)).map (fun p => p.1)

/-- `foreignKeyColumnNamesToTables[col]`. -/
def fkTargetTable (tableSchema : DBTable) (col : String) : String :=
  match lookupKey tableSchema.columns col with
  | some ct =>
      match ct.kind with
      | DBColumnKind.foreignKey t => t
      | _ => ""
  | none => ""

/-- Standard semantics of `selectByPrimaryKeys` against the engine state:
rows of `table` whose primary-key value is in `pks` (SQL `IN` never matches
NULL/undefined), deserialized. -/
def selectByPrimaryKeysEval (jsonParse : String → DBValue) (state : String → List Row)
    (schema : DBSchema) (table : String) (pks : List (Option DBValue)) : List Row :=
  match lookupKey schema table with
  | none => []
  | some tableSchema =>
      ((state table).filter (fun row =>
        match rowLookup row tableSchema.primaryKey with
        | some v => decide (some v ∈ pks)
        | none => false)).map (deserializeSpecialColumns jsonParse schema table)

/-- `new Map(items.map(r => [r[pk], r]))`: association pairs keyed by the
item's primary-key value. -/
def buildResolvedMap (items : List Row) (pk : String) : List (Option DBValue × Row) :=
  items.map (fun r => (rowLookup r pk, r))

/-- JS `Map.prototype.get`: the value most recently set for the key. -/
def jsMapGet (m : List (Option DBValue × Row)) (k : Option DBValue) : Option Row :=
  (m.reverse.find? (fun p => p.1 = k)).map (fun p => p.2)

/-- The per-column resolution maps built inside `resolveForeignKeys`. -/
def resolveMapsOf (jsonParse : String → DBValue) (state : String → List Row)
    (schema : DBSchema) (tableSchema : DBTable) (rows : List Row) :
    List (String × List (Option DBValue × Row)) :=
  (foreignKeyColumnNames tableSchema).map (fun col =>
    let tgt := fkTargetTable tableSchema col
    let pks := jsSetDedup (rows.map (fun r => rowLookup r col))
    let items := selectByPrimaryKeysEval jsonParse state schema tgt pks
    (col, buildResolvedMap items
      (match lookupKey schema tgt with
       | some t2 => t2.primaryKey
       | none => "")))

/-- A result-row value: either a primitive value or a resolved target row. -/
inductive RVal
  | prim (v : DBValue)
  | rrow (fields : Row)
deriving DecidableEq, Repr

/-- A row after foreign-key resolution. -/
abbrev RRow : Type := List (String × RVal)

/-- JS property assignment `output[col] = v` on an existing key. -/
def rrowSet (o : RRow) (k : String) (v : RVal) : RRow :=
  o.map (fun p => if p.1 = k then (p.1, v) else p)

/-- The per-row loop body of `resolveForeignKeys`: substitutes each
foreign-key column with its resolved row, returning `none` (`null`) as soon
as one lookup misses. -/
def resolveSubstLoop (maps : List (String × List (Option DBValue × Row)))
    (fkCols : List String) (r : Row) (out : RRow) : Option RRow :=
  match fkCols with
  | [] => some out
  | col :: rest =>
      match jsMapGet ((lookupKey maps col).getD []) (rowLookup r col) with
      | none => none
      | some tgt => resolveSubstLoop maps rest r (rrowSet out col (RVal.rrow tgt))

/-- `Database.resolveForeignKeys`: builds one resolution map per foreign-key
column (one batched select each), substitutes, and filters out the `null`
entries. -/
def resolveForeignKeysModel (jsonParse : String → DBValue) (state : String → List Row)
    (schema : DBSchema) (table : String) (rows : List Row) : List RRow :=
  match lookupKey schema table with
  | none => []
  | some tableSchema =>
      let fkCols := foreignKeyColumnNames tableSchema
      let maps := resolveMapsOf jsonParse state schema tableSchema rows
      (rows.map (fun r =>
        resolveSubstLoop maps fkCols r (r.map (fun p => (p.1, RVal.prim p.2))))).reduceOption

/-- Following the spec's words: return exactly those input rows all of whose
foreign-key values resolve, in input order, with each foreign-key value
replaced by the fully resolved target row; rows with any unresolvable
foreign-key value are omitted entirely. -/
def resolveForeignKeysSpec (jsonParse : String → DBValue) (state : String → List Row)
    (schema : DBSchema) (table : String) (rows : List Row) : List RRow :=
  match lookupKey schema table with
  | none => []
  | some tableSchema =>
      let fkCols := foreignKeyColumnNames tableSchema
      let maps := resolveMapsOf jsonParse state schema tableSchema rows
      (rows.filter (fun r =>
        fkCols.all (fun col =>
          (jsMapGet ((lookupKey maps col).getD []) (rowLookup r col)).isSome))).map (fun r =>
        fkCols.foldl (fun out col =>
          rrowSet out col (RVal.rrow
            ((jsMapGet ((lookupKey maps col).getD []) (rowLookup r col)).getD [])))
          (r.map (fun p => (p.1, RVal.prim p.2))))

/-! ## Main-table upsert semantics

Standard SQLite semantics of the compiled
`INSERT ... ON CONFLICT(pk) DO UPDATE SET c = excluded.c / DO NOTHING`
statement, applied to a logical main-table store. -/

/-- Conflict resolution for one conflicting row: `DO NOTHING` keeps the stored
row; `DO UPDATE SET` assigns `excluded.<c>` to each listed column. -/
def applyConflictPolicy (policy : ConflictPolicy) (oldRow newRow : Row) : Row :=
  match policy with
  | ConflictPolicy.doNothing => oldRow
  | ConflictPolicy.updateSet _ cols =>
      oldRow.map (fun p =>
        if p.1 ∈ cols then (p.1, (rowLookup newRow p.1).getD p.2) else p)

/-- Insert one row into the store under the conflict policy. -/
def insertOneOnConflict (pkCol : String) (policy : ConflictPolicy) (store : List Row)
    (r : Row) : List Row :=
  if store.any (fun old => rowLookup old pkCol = rowLookup r pkCol) then
    store.map (fun old =>
      if rowLookup old pkCol = rowLookup r pkCol then applyConflictPolicy policy old r else old)
  else store ++ [r]

/-- Effect of the main-table statement of `cmdUpsertMany` on the main-table
store. -/
def applyMainUpsert (tableName : String) (rows : List Row) (schema : DBSchema)
    (store : List Row) : List Row :=
  match (cmdUpsertMany tableName rows schema).head? with
  | some (Cmd.insertOnConflict _ mainRows policy) =>
      match lookupKey schema tableName with
      | some table =>
          mainRows.foldl (fun st r => insertOneOnConflict table.primaryKey policy st r) store
      | none => store
  | _ => store

/-! ## Database facade programs (`database.ts`)

Each public method is embedded as the sequence of actions it performs against
the shared connection: mutex acquisition/release (`_withMutex` at depth 0),
connection calls (`execute` / `executeInTransaction`) and observer emissions.
Nested `_withMutex` calls run their function directly when the depth is
positive, so an inner public-method call contributes its body without
lock/unlock actions. -/

/-- One step of a database method against the shared resources. -/
inductive DBAction
  | lock
  | unlock
  | connExec (c : Cmd)
  | connExecTxn (cs : List Cmd)
  | emitInsert (table : String) (rows : List Row)
  | emitUpdate (table : String) (rows : List Row)
  | emitDelete (table : String) (pks : List DBValue)
deriving DecidableEq, Repr

/-- `_withMutex` at depth 0 around a body that itself takes no lock. -/
def mutexWrap (body : List DBAction) : List DBAction :=
  DBAction.lock :: body ++ [DBAction.unlock]

/-- Is the action a call against the connection? -/
def isConn (a : DBAction) : Bool :=
  match a with
  | DBAction.connExec _ => true
  | DBAction.connExecTxn _ => true
  | _ => false

/-- `List.take n` batching with batch size `n + 1` (the JS loops use literal
positive batch sizes). -/
def chunksOfSucc {α : Type} (n : Nat) : List α → List (List α)
  | [] => []
  | x :: xs => ((x :: xs).take (n + 1)) :: chunksOfSucc n ((x :: xs).drop (n + 1))
termination_by l => l.length
decreasing_by
  simp only [List.drop_succ_cons, List.length_drop, List.length_cons]
  omega

/-- `Database.select`: compiles and issues a single `execute` — *without*
taking the mutex. -/
def selectProg (query : QueryDescr) (schema : DBSchema) (limit : Option Nat) : List DBAction :=
  [DBAction.connExec (Cmd.selectQ (cmdSelectModel query schema limit))]

/-- `Database.selectByPrimaryKeys`: a single `execute`, no mutex. -/
def selectByPrimaryKeysProg (table : String) (schema : DBSchema) (pks : List DBValue) :
    List DBAction :=
  [DBAction.connExec (cmdSelectByPrimaryKeysModel table schema pks)]

/-- `Database.selectOne` = `select` with limit 1 (no mutex). -/
def selectOneProg (query : QueryDescr) (schema : DBSchema) : List DBAction :=
  selectProg query schema (some 1)

/-- `Database.exists` = `select` with limit 1 (no mutex). -/
def existsProg (query : QueryDescr) (schema : DBSchema) : List DBAction :=
  selectProg query schema (some 1)

/-- `Database.createTables`: commands are compiled before the mutex is taken
(a compile error aborts with no connection calls), then executed under it. -/
def createTablesProg (schema : DBSchema) : List DBAction :=
  match cmdCreateTables schema with
  | Except.error _ => []
  | Except.ok cmds => mutexWrap (cmds.map DBAction.connExec)

/-- `Database.insertRow`. -/
def insertRowProg (table : String) (values : Row) (schema : DBSchema) : List DBAction :=
  mutexWrap ((cmdInsert table values schema).map DBAction.connExec ++
    [DBAction.emitInsert table [values]])

/-- `Database.insertRows`: batches of 1024 rows, one transaction per batch. -/
def insertRowsProg (table : String) (rows : List Row) (schema : DBSchema) : List DBAction :=
  mutexWrap ((chunksOfSucc 1023 rows).map (fun batch =>
    DBAction.connExecTxn (cmdInsertMany table batch schema)) ++
    [DBAction.emitInsert table rows])

/-- `Database.upsertRows`: batches (default size 1024), one transaction per
batch, then one insert-observer emission. -/
def upsertRowsProg (table : String) (rows : List Row) (schema : DBSchema) : List DBAction :=
  mutexWrap ((chunksOfSucc 1023 rows).map (fun batch =>
    DBAction.connExecTxn (cmdUpsertMany table batch schema)) ++
    [DBAction.emitInsert table rows])

/-- `Database.upsertRow` delegates to `upsertRows`. -/
def upsertRowProg (table : String) (values : Row) (schema : DBSchema) : List DBAction :=
  upsertRowsProg table [values] schema

/-- Body of `Database.updateRows` (its `_withMutex` function). -/
def updateRowsBody (table : String) (rows : List Row) (schema : DBSchema) : List DBAction :=
  (cmdUpdateMany table rows schema).map DBAction.connExec ++ [DBAction.emitUpdate table rows]

/-- `Database.updateRows`. -/
def updateRowsProg (table : String) (rows : List Row) (schema : DBSchema) : List DBAction :=
  mutexWrap (updateRowsBody table rows schema)

/-- `Database.updateRow`: takes the mutex, runs the nested `updateRows`
(whose own `_withMutex` sees a positive depth and runs directly, emitting the
update event once), then emits the update event again itself. -/
def updateRowProg (table : String) (values : Row) (schema : DBSchema) : List DBAction :=
  mutexWrap (updateRowsBody table [values] schema ++ [DBAction.emitUpdate table [values]])

/-- `Database.deleteRows`. -/
def deleteRowsProg (table : String) (pks : List DBValue) (schema : DBSchema) : List DBAction :=
  mutexWrap ((cmdDeleteMany table pks schema).map DBAction.connExec ++
    [DBAction.emitDelete table pks])

/-- `Database.deleteRow` delegates to `deleteRows`. -/
def deleteRowProg (table : String) (pk : DBValue) (schema : DBSchema) : List DBAction :=
  deleteRowsProg table [pk] schema

/-- `Database.deleteWhere`: select under the mutex, then nested `deleteRows`
per batch of 1204 selected primary keys, then the delete emission.
`selectedPks` are the primary keys the select returned. -/
def deleteWhereProg (query : QueryDescr) (schema : DBSchema) (selectedPks : List DBValue) :
    List DBAction :=
  mutexWrap (DBAction.connExec (Cmd.selectQ (cmdSelectModel query schema none)) ::
    ((chunksOfSucc 1203 selectedPks).flatMap (fun batch =>
      (cmdDeleteMany query.tableName batch schema).map DBAction.connExec ++
        [DBAction.emitDelete query.tableName batch]) ++
      [DBAction.emitDelete query.tableName selectedPks]))

/-- `Database.garbageCollect`. -/
def garbageCollectProg (schema : DBSchema) (table : Option String) : List DBAction :=
  let commands :=
    match table with
    | some t => cmdGarbageCollectSingleTable schema t
    | none => cmdGarbageCollectAllTables schema
  mutexWrap (commands.map DBAction.connExec)

/-- `Database.dbStat`: per table a primary count plus shadow counts when the
shadows exist. -/
def dbStatProg (schema : DBSchema) : List DBAction :=
  mutexWrap (schema.flatMap (fun p =>
    [DBAction.connExec (cmdStat p.1)] ++
    (if (getFullTextColumns p.2).length > 0 then
      [DBAction.connExec (cmdStat (getFTS5VirtualTableName p.1))]
    else []) ++
    (if (getVectorColumns p.2).length > 0 then
      [DBAction.connExec (cmdStat (getVectorVirtualTableName p.1))]
    else [])))

/-- `Database.resolveForeignKeys`: one batched select per foreign-key column,
under the mutex (the nested `selectByPrimaryKeys` runs at positive depth). -/
def resolveForeignKeysProg (table : String) (rows : List Row) (schema : DBSchema) :
    List DBAction :=
  match lookupKey schema table with
  | none => mutexWrap []
  | some tableSchema =>
      mutexWrap ((foreignKeyColumnNames tableSchema).map (fun col =>
        DBAction.connExec (Cmd.selectByPks (fkTargetTable tableSchema col)
          ((jsSetDedup (rows.map (fun r => rowLookup r col))).map (fun o =>
            o.getD DBValue.null)))))

/-- Does every connection call in the program happen at positive mutex
depth? -/
def execsLocked : Nat → List DBAction → Bool
  | _, [] => true
  | d, DBAction.lock :: rest => execsLocked (d + 1) rest
  | d, DBAction.unlock :: rest => execsLocked (d - 1) rest
  | d, a :: rest => (if isConn a then decide (0 < d) else true) && execsLocked d rest

/-- The update-observer emissions of a program, with their payloads. -/
def emitUpdatesOf (prog : List DBAction) : List (String × List Row) :=
  prog.filterMap (fun a =>
    match a with
    | DBAction.emitUpdate t rows => some (t, rows)
    | _ => none)

/-- Does every update-observer emission happen at positive mutex depth? -/
def emitUpdatesLocked : Nat → List DBAction → Bool
  | _, [] => true
  | d, DBAction.lock :: rest => emitUpdatesLocked (d + 1) rest
  | d, DBAction.unlock :: rest => emitUpdatesLocked (d - 1) rest
  | d, DBAction.emitUpdate _ _ :: rest => decide (0 < d) && emitUpdatesLocked d rest
  | d, _ :: rest => emitUpdatesLocked d rest

/-- `DBEventCallbackManager.emit` invokes every registered callback once, in
registration order; over a whole program this yields one invocation per
(callback, emission) pair.  Callbacks are identified by registration identity
(here: a number). -/
def observerInvocations (cbs : List Nat) (prog : List DBAction) :
    List (Nat × (String × List Row)) :=
  (emitUpdatesOf prog).flatMap (fun payload => cbs.map (fun cb => (cb, payload)))

/-! ## The serialization machine

Two logical operations issued concurrently against one facade.  Each can take
a step when its next action is enabled: `lock` only when the mutex is free,
`unlock` only by the holder, connection calls and emissions at any time (the
facade never re-checks the mutex there).  The trace records the connection
calls in execution order. -/

/-- Machine state: the two operations' remaining programs, the mutex holder,
and the trace of connection calls `(operation id, action)`. -/
structure MState where
  p0 : List DBAction
  p1 : List DBAction
  holder : Option Bool
  trace : List (Bool × DBAction)

/-- One scheduler step. -/
inductive MStep : MState → MState → Prop
  | lock0 (rest p1 tr) :
      MStep (MState.mk (DBAction.lock :: rest) p1 none tr) (MState.mk rest p1 (some false) tr)
  | lock1 (p0 rest tr) :
      MStep (MState.mk p0 (DBAction.lock :: rest) none tr) (MState.mk p0 rest (some true) tr)
  | unlock0 (rest p1 tr) :
      MStep (MState.mk (DBAction.unlock :: rest) p1 (some false) tr)
        (MState.mk rest p1 none tr)
  | unlock1 (p0 rest tr) :
      MStep (MState.mk p0 (DBAction.unlock :: rest) (some true) tr)
        (MState.mk p0 rest none tr)
  | conn0 (a rest p1 h tr) : isConn a = true →
      MStep (MState.mk (a :: rest) p1 h tr) (MState.mk rest p1 h (tr ++ [(false, a)]))
  | conn1 (p0 a rest h tr) : isConn a = true →
      MStep (MState.mk p0 (a :: rest) h tr) (MState.mk p0 rest h (tr ++ [(true, a)]))
  | silent0 (a rest p1 h tr) : isConn a = false → a ≠ DBAction.lock → a ≠ DBAction.unlock →
      MStep (MState.mk (a :: rest) p1 h tr) (MState.mk rest p1 h tr)
  | silent1 (p0 a rest h tr) : isConn a = false → a ≠ DBAction.lock → a ≠ DBAction.unlock →
      MStep (MState.mk p0 (a :: rest) h tr) (MState.mk p0 rest h tr)

/-- Reachability under the scheduler. -/
def MReach : MState → MState → Prop :=
  Relation.ReflTransGen MStep

/-- Initial state: both operations pending, mutex free, empty trace. -/
def initState (progA progB : List DBAction) : MState :=
  MState.mk progA progB none []

/-- A body contains no lock or unlock action (it only talks to the connection
and the observer). -/
def plainBody (body : List DBAction) : Prop :=
  ∀ a ∈ body, a ≠ DBAction.lock ∧ a ≠ DBAction.unlock

/-- The trace is two contiguous blocks: every call of one operation precedes
every call of the other. -/
def contiguousTrace (tr : List (Bool × DBAction)) : Prop :=
  ∃ b n m, tr.map Prod.fst = List.replicate n b ++ List.replicate m (!b)

/-- The program of operation `b` in the state. -/
def sideProg (s : MState) (b : Bool) : List DBAction :=
  cond b s.p1 s.p0

/-- The body of operation `b`. -/
def sideBody (body0 body1 : List DBAction) (b : Bool) : List DBAction :=
  cond b body1 body0

/-- Inductive invariant of the two-operation machine started on two
mutex-wrapped programs: each program is a suffix of its original; the mutex
holder has started and not finished while the other operation is untouched or
done; and the trace is two contiguous blocks whose first owner has started and
is finished before the second block begins. -/
def MInv (body0 body1 : List DBAction) (s : MState) : Prop :=
  (∃ k, s.p0 = (mutexWrap body0).drop k) ∧
  (∃ k, s.p1 = (mutexWrap body1).drop k) ∧
  (s.holder = none →
    (s.p0 = mutexWrap body0 ∨ s.p0 = []) ∧ (s.p1 = mutexWrap body1 ∨ s.p1 = [])) ∧
  (s.holder = some false →
    s.p0 ≠ mutexWrap body0 ∧ s.p0 ≠ [] ∧ (s.p1 = mutexWrap body1 ∨ s.p1 = [])) ∧
  (s.holder = some true →
    s.p1 ≠ mutexWrap body1 ∧ s.p1 ≠ [] ∧ (s.p0 = mutexWrap body0 ∨ s.p0 = [])) ∧
  (∃ b n m, s.trace.map Prod.fst = List.replicate n b ++ List.replicate m (!b) ∧
    (0 < m → sideProg s b = []) ∧
    (0 < n → sideProg s b ≠ mutexWrap (sideBody body0 body1 b)))

/-! ## Definitions following the spec's words, for refinement comparisons -/

/-- JS regex `\s` on the ASCII range (space, tab, newline, carriage return,
vertical tab, form feed). -/
def jsWhitespaceChar (c : Char) : Bool :=
  c = ' ' || c = '\t' || c = '\n' || c = '\r' || c = '\x0b' || c = '\x0c'

/-- Following the spec's words: the `matches` token string with the query
split on *whitespace* and each non-empty token individually quoted. -/
def specMatchesTokenArg (value : String) : String :=
  String.intercalate " "
    (((splitOnPred jsWhitespaceChar value).filter (fun w => w ≠ "")).map
      (fun w => "\"" ++ w ++ "\""))

/-- Following the spec's words: the compiled `matches` predicate — token
match over the FTS shadow table for queries of length ≥ 3 (whitespace-split
tokens), prefix LIKE for shorter queries. -/
def specMatchesPredicate (tableName columnName : String) (value : String) : SqlExpr :=
  let fts5TableName := getFTS5VirtualTableName tableName
  if value.length ≥ 3 then
    SqlExpr.inSub (fts5TableName ++ "." ++ VTABLE_COLUMN_ORIGINPK)
      (SubQuery.ftsMatch fts5TableName VTABLE_COLUMN_ORIGINPK
        (fts5TableName ++ "." ++ columnName) (specMatchesTokenArg value))
  else
    SqlExpr.inSub (fts5TableName ++ "." ++ VTABLE_COLUMN_ORIGINPK)
      (SubQuery.ftsLike fts5TableName VTABLE_COLUMN_ORIGINPK
        (fts5TableName ++ "." ++ columnName) (value ++ "%"))

/-- JS `s.replace(/pat/g, repl)`: replace every occurrence of the character. -/
def replaceAllChar (s : String) (pat : Char) (repl : String) : String :=
  String.intercalate repl ((splitOnPredList (fun c => c = pat) s.data).map String.mk)

/-- Following the spec's words: fold *every* smart double quote and smart
apostrophe to its ASCII equivalent. -/
def specNormalizeAllSmart (s : String) : String :=
  replaceAllChar (replaceAllChar (replaceAllChar (replaceAllChar s '”' "\"") '“' "\"") '’' "'")
    '‘' "'"

/-! ## Operator sets (per column kind), used to state the error claims -/

/-- The operators the primitive (number/boolean) compilation path accepts. -/
def opsPrimitive10 : List String :=
  ["equals", "notEquals", "equalsAnyOf", "notEqualsAnyOf", "greaterThan", "lessThan",
   "greaterThanOrEqual", "lessThanOrEqual", "in", "notIn"]

/-- The operators the string compilation path accepts. -/
def opsString13 : List String :=
  opsPrimitive10 ++ ["contains", "notContains", "flexiblyMatches"]

/-- The operators `handleArrayOperation` accepts. -/
def opsArray6 : List String :=
  ["contains", "doesNotContain", "containsAllOf", "containsAnyOf", "nonEmpty", "isEmpty"]

/-! ## Concrete fixtures for counterexamples and witnesses -/

def colNum : DBColumnType := DBColumnType.mk DBColumnKind.number false

def colStr : DBColumnType := DBColumnType.mk DBColumnKind.string false

def colStrNR : DBColumnType := DBColumnType.mk DBColumnKind.string true

def colFT : DBColumnType := DBColumnType.mk DBColumnKind.fullTextString false

def colVec3 : DBColumnType := DBColumnType.mk (DBColumnKind.vector 3 VecDtype.f32) false

/-- A table with one full-text and one vector column. -/
def docsTable : DBTable :=
  DBTable.mk [("id", colNum), ("title", colStr), ("body", colFT), ("emb", colVec3)] "id"

def docsSchema : DBSchema := [("docs", docsTable)]

/-- A plain table with a `noReplaceOnUpsert` column. -/
def notesTable : DBTable :=
  DBTable.mk [("id", colNum), ("name", colStr), ("keep", colStrNR)] "id"

def notesSchema : DBSchema := [("notes", notesTable)]

/-- A table with one full-text column. -/
def ftTable : DBTable := DBTable.mk [("id", colNum), ("body", colFT)] "id"

def ftSchema : DBSchema := [("ft", ftTable)]

/-- A table whose primary key is a vector column. -/
def vecPkSchema : DBSchema := [("vpk", DBTable.mk [("e", colVec3)] "e")]

/-- A table whose primary key is a full-text column. -/
def ftPkSchema : DBSchema := [("fpk", DBTable.mk [("b", colFT)] "b")]

/-- A full-text value with two smart opening quotes. -/
def rowSmart : Row := [("id", DBValue.int 1), ("body", DBValue.str "a“b“c")]

def noteRow1 : Row := [("id", DBValue.int 1), ("name", DBValue.str "x"), ("keep", DBValue.str "y")]

def noteRow2 : Row := [("id", DBValue.int 1), ("name", DBValue.str "x2"), ("keep", DBValue.str "y2")]

/-- An update payload touching neither full-text nor vector columns. -/
def updNoShadow : Row := [("id", DBValue.int 1), ("title", DBValue.str "t")]

/-- A trivial query descriptor over `docs`. -/
def q0 : QueryDescr := QueryDescr.mk "docs" none none none

/-- A `k = 1` vector query against `docs.emb`. -/
def q1 : QueryDescr :=
  QueryDescr.mk "docs" none none (some (VectorQuerySpec.mk [("emb", [1, 2, 3])] 1))

/-! # Theorems -/

/-! ## Association-list helper lemmas -/

theorem lookupKey_eq_none {α : Type} (m : List (String × α)) (k : String)
    (h : k ∉ m.map Prod.fst) : lookupKey m k = none := by
  induction m with
  | nil => rfl
  | cons p t ih =>
    simp only [List.map_cons, List.mem_cons, not_or] at h
    unfold lookupKey at *
    rw [List.find?_cons_of_neg]
    · exact ih h.2
    · simp only [decide_eq_true_eq]
      exact fun hh => h.1 hh.symm

theorem lookupKey_mem {α : Type} {m : List (String × α)} {k : String} {v : α}
    (h : lookupKey m k = some v) : (k, v) ∈ m := by
  unfold lookupKey at h
  cases hf : m.find? (fun p => p.1 = k) with
  | none => rw [hf] at h; cases h
  | some p =>
    rw [hf] at h
    simp only [Option.map_some'] at h
    have hm := List.mem_of_find?_eq_some hf
    have hp := List.find?_some hf
    simp only [decide_eq_true_eq] at hp
    have : p = (k, v) := by
      cases p
      cases h
      cases hp
      rfl
    exact this ▸ hm

theorem lookupKey_cons_self {α : Type} (k : String) (v : α) (t : List (String × α)) :
    lookupKey ((k, v) :: t) k = some v := by
  unfold lookupKey
  rw [List.find?_cons_of_pos _ (by simp)]
  rfl

theorem lookupKey_eq_some_iff {α : Type} {m : List (String × α)}
    (hnd : (m.map Prod.fst).Nodup) (k : String) (v : α) :
    lookupKey m k = some v ↔ (k, v) ∈ m := by
  constructor
  · exact lookupKey_mem
  · intro hm
    induction m with
    | nil => cases hm
    | cons p t ih =>
      simp only [List.map_cons, List.nodup_cons] at hnd
      rcases List.mem_cons.mp hm with he | hmt
      · rw [← he]
        exact lookupKey_cons_self k v t
      · have hk : ¬(p.1 = k) := by
          intro heq
          exact hnd.1 (heq ▸ (List.mem_map.mpr ⟨(k, v), hmt, rfl⟩))
        unfold lookupKey
        rw [List.find?_cons_of_neg]
        · exact ih hnd.2 hmt
        · simpa using hk

/-! ## C1: operator dispatch per resolved column kind -/

theorem handleArrayOperation_unknown (c : ColumnInfo) (op : String) (v : DBValue)
    (h : op ∉ opsArray6) :
    handleArrayOperation c op v = Except.error ("Unsupported array operator: " ++ op) := by
  unfold handleArrayOperation
  split
  all_goals simp_all [opsArray6]

/-- C1, counterexample: compiling an `equals` condition on a full-text column
does not raise — it yields no predicate (`undefined`); compiling `equals`
against a vector-distance reference does not raise — it is silently compiled
as a `>` comparison of the distance pseudo-column. -/
theorem C1_counterexample :
    handleColumnOperation (ColumnInfo.mk "docs" "body" colFT) "equals" (DBValue.str "x")
        = Except.ok none
    ∧ handleColumnOperation (ColumnInfo.mk "docs" "emb" colVec3) "equals" (DBValue.real 1)
        = Except.ok (some (SqlExpr.binop "$distance_emb" ">" (DBValue.real 1))) :=
  ⟨rfl, rfl⟩

/-- C1 (amended): for primitive (number/boolean/string) and string-array
columns an operator outside the column kind's operator set raises an error;
but for a full-text column an unsupported operator is silently ignored
(no predicate, no error), and for a vector-distance reference every operator
other than `lessThan` — including `equals` — is silently compiled as a `>`
comparison (`lessThan` as `<`). -/
theorem C1_operator_validation :
    ∀ (tbl col : String) (flag : Bool) (op : String) (v : DBValue),
      (op ≠ "matches" → op ≠ "flexiblyMatches" →
        handleColumnOperation
          (ColumnInfo.mk tbl col (DBColumnType.mk DBColumnKind.fullTextString flag)) op v
          = Except.ok none)
      ∧ (∀ d dt, op ≠ "lessThan" →
          handleColumnOperation
            (ColumnInfo.mk tbl col (DBColumnType.mk (DBColumnKind.vector d dt) flag)) op v
            = Except.ok (some (SqlExpr.binop (getVectorDistanceColumnName col) ">" v)))
      ∧ (∀ d dt,
          handleColumnOperation
            (ColumnInfo.mk tbl col (DBColumnType.mk (DBColumnKind.vector d dt) flag)) "lessThan" v
            = Except.ok (some (SqlExpr.binop (getVectorDistanceColumnName col) "<" v)))
      ∧ (op ∉ opsPrimitive10 →
          ∃ msg, handleColumnOperation
            (ColumnInfo.mk tbl col (DBColumnType.mk DBColumnKind.number flag)) op v
            = Except.error msg)
      ∧ (op ∉ opsPrimitive10 →
          ∃ msg, handleColumnOperation
            (ColumnInfo.mk tbl col (DBColumnType.mk DBColumnKind.boolean flag)) op v
            = Except.error msg)
      ∧ (op ∉ opsString13 →
          ∃ msg, handleColumnOperation
            (ColumnInfo.mk tbl col (DBColumnType.mk DBColumnKind.string flag)) op v
            = Except.error msg)
      ∧ (op ∉ opsArray6 →
          ∃ msg, handleColumnOperation
            (ColumnInfo.mk tbl col (DBColumnType.mk DBColumnKind.stringArray flag)) op v
            = Except.error msg) := by
  intro tbl col flag op v
  refine ⟨?_, ?_, ?_, ?_, ?_, ?_, ?_⟩
  · intro h1 h2
    simp [handleColumnOperation, handleFullTextOperation, h1, h2]
  · intro d dt h
    simp [handleColumnOperation, handleVectorDistanceOperation, h]
  · intro d dt
    simp [handleColumnOperation, handleVectorDistanceOperation]
  · intro h
    simp only [opsPrimitive10, List.mem_cons, not_or, List.not_mem_nil, or_false] at h
    obtain ⟨h1, h2, h3, h4, h5, h6, h7, h8, h9, h10⟩ := h
    have hmap : op ∉ (operatorMap.map Prod.fst) := by
      simp [operatorMap]
      exact ⟨h1, h2, h5, h6, h7, h8, h9, h10⟩
    unfold handleColumnOperation
    rw [if_neg h3, if_neg h4]
    by_cases hC : op = "contains" ∨ op = "notContains"
    · rw [if_pos hC, if_pos (by simp)]
      exact ⟨_, rfl⟩
    · rw [if_neg hC]
      by_cases hF : op = "flexiblyMatches"
      · rw [if_pos hF, if_pos (by simp)]
        exact ⟨_, rfl⟩
      · rw [if_neg hF, lookupKey_eq_none _ _ hmap]
        exact ⟨_, rfl⟩
  · intro h
    simp only [opsPrimitive10, List.mem_cons, not_or, List.not_mem_nil, or_false] at h
    obtain ⟨h1, h2, h3, h4, h5, h6, h7, h8, h9, h10⟩ := h
    have hmap : op ∉ (operatorMap.map Prod.fst) := by
      simp [operatorMap]
      exact ⟨h1, h2, h5, h6, h7, h8, h9, h10⟩
    unfold handleColumnOperation
    rw [if_neg h3, if_neg h4]
    by_cases hC : op = "contains" ∨ op = "notContains"
    · rw [if_pos hC, if_pos (by simp)]
      exact ⟨_, rfl⟩
    · rw [if_neg hC]
      by_cases hF : op = "flexiblyMatches"
      · rw [if_pos hF, if_pos (by simp)]
        exact ⟨_, rfl⟩
      · rw [if_neg hF, lookupKey_eq_none _ _ hmap]
        exact ⟨_, rfl⟩
  · intro h
    simp only [opsString13, opsPrimitive10, List.mem_append, List.mem_cons, not_or,
      List.not_mem_nil, or_false] at h
    obtain ⟨⟨h1, h2, h3, h4, h5, h6, h7, h8, h9, h10⟩, hc1, hc2, hf⟩ := h
    have hmap : op ∉ (operatorMap.map Prod.fst) := by
      simp [operatorMap]
      exact ⟨h1, h2, h5, h6, h7, h8, h9, h10⟩
    unfold handleColumnOperation
    rw [if_neg h3, if_neg h4, if_neg (by exact fun hh => hh.elim hc1 hc2), if_neg hf,
      lookupKey_eq_none _ _ hmap]
    exact ⟨_, rfl⟩
  · intro h
    unfold handleColumnOperation
    rw [handleArrayOperation_unknown _ _ _ h]
    exact ⟨_, rfl⟩

/-! ## C6: the `matches` compilation -/

/-- C6, counterexample: on the query `"ab\tcd"` the code splits on the space
character only, producing the single quoted token `"ab\tcd"`, whereas the
claimed whitespace-split produces `"ab" "cd"`. -/
theorem C6_counterexample :
    handleFullTextOperation (ColumnInfo.mk "docs" "body" colFT) "matches" "ab\tcd"
      ≠ some (specMatchesPredicate "docs" "body" "ab\tcd") := by
  have e1 : handleFullTextOperation (ColumnInfo.mk "docs" "body" colFT) "matches" "ab\tcd"
      = some (SqlExpr.inSub "docs_fts5.originPK"
          (SubQuery.ftsMatch "docs_fts5" "originPK" "docs_fts5.body" "\"ab\tcd\"")) := rfl
  have e2 : specMatchesPredicate "docs" "body" "ab\tcd"
      = SqlExpr.inSub "docs_fts5.originPK"
          (SubQuery.ftsMatch "docs_fts5" "originPK" "docs_fts5.body" "\"ab\" \"cd\"") := rfl
  rw [e1, e2]
  intro h
  have h2 := Option.some.inj h
  injection h2 with hcol hsub
  injection hsub with a b c harg
  exact absurd harg (by decide)

/-- C6 (amended): a `matches` condition on a full-text column compiles, for a
query of length ≥ 3, to an `IN`-subquery over the FTS shadow table using the
`match` operator with the query split on the *space character* (not on all
whitespace), each non-empty token individually double-quoted and joined by
spaces (AND semantics); for a query of length < 3 it compiles to an
`IN`-subquery using `like` with the prefix pattern `query%` on the same
shadow column. -/
theorem C6_matches_compilation :
    ∀ (tbl col : String) (flag : Bool) (value : String),
      (3 ≤ value.length →
        handleColumnOperation
          (ColumnInfo.mk tbl col (DBColumnType.mk DBColumnKind.fullTextString flag))
          "matches" (DBValue.str value)
          = Except.ok (some (SqlExpr.inSub
              (getFTS5VirtualTableName tbl ++ "." ++ VTABLE_COLUMN_ORIGINPK)
              (SubQuery.ftsMatch (getFTS5VirtualTableName tbl) VTABLE_COLUMN_ORIGINPK
                (getFTS5VirtualTableName tbl ++ "." ++ col)
                (String.intercalate " "
                  (((splitOnChar ' ' value).filter (fun w => w ≠ "")).map
                    (fun w => "\"" ++ w ++ "\"")))))))
      ∧ (value.length < 3 →
        handleColumnOperation
          (ColumnInfo.mk tbl col (DBColumnType.mk DBColumnKind.fullTextString flag))
          "matches" (DBValue.str value)
          = Except.ok (some (SqlExpr.inSub
              (getFTS5VirtualTableName tbl ++ "." ++ VTABLE_COLUMN_ORIGINPK)
              (SubQuery.ftsLike (getFTS5VirtualTableName tbl) VTABLE_COLUMN_ORIGINPK
                (getFTS5VirtualTableName tbl ++ "." ++ col) (value ++ "%"))))) := by
  intro tbl col flag value
  constructor
  · intro h
    simp [handleColumnOperation, handleFullTextOperation, matchesTokenArg, h]
  · intro h
    simp [handleColumnOperation, handleFullTextOperation, Nat.not_le.mpr h]

/-- C6, witness: both paths at concrete queries. -/
theorem C6_witness :
    (3 ≤ ("abc" : String).length
      ∧ handleColumnOperation (ColumnInfo.mk "docs" "body" colFT) "matches" (DBValue.str "abc")
        = Except.ok (some (SqlExpr.inSub "docs_fts5.originPK"
            (SubQuery.ftsMatch "docs_fts5" "originPK" "docs_fts5.body" "\"abc\""))))
    ∧ (("ab" : String).length < 3
      ∧ handleColumnOperation (ColumnInfo.mk "docs" "body" colFT) "matches" (DBValue.str "ab")
        = Except.ok (some (SqlExpr.inSub "docs_fts5.originPK"
            (SubQuery.ftsLike "docs_fts5" "originPK" "docs_fts5.body" "ab%")))) :=
  ⟨⟨by decide, (C6_matches_compilation "docs" "body" false "abc").1 (by decide)⟩,
   ⟨by decide, (C6_matches_compilation "docs" "body" false "ab").2 (by decide)⟩⟩

/-- C1, witness: `frobnicate` errors on a number column; `notMatches` on a
full-text column is silently ignored; `greaterThan` on a vector distance
compiles as `>`. -/
theorem C1_witness :
    ("frobnicate" : String) ∉ opsPrimitive10
    ∧ (∃ msg, handleColumnOperation
        (ColumnInfo.mk "docs" "id" (DBColumnType.mk DBColumnKind.number false))
        "frobnicate" (DBValue.int 1) = Except.error msg)
    ∧ handleColumnOperation
        (ColumnInfo.mk "docs" "body" (DBColumnType.mk DBColumnKind.fullTextString false))
        "notMatches" (DBValue.str "x") = Except.ok none
    ∧ handleColumnOperation
        (ColumnInfo.mk "docs" "emb" (DBColumnType.mk (DBColumnKind.vector 3 VecDtype.f32) false))
        "greaterThan" (DBValue.real 2)
        = Except.ok (some (SqlExpr.binop (getVectorDistanceColumnName "emb") ">"
            (DBValue.real 2))) :=
  ⟨by decide,
   (C1_operator_validation "docs" "id" false "frobnicate" (DBValue.int 1)).2.2.2.1 (by decide),
   (C1_operator_validation "docs" "body" false "notMatches" (DBValue.str "x")).1
     (by decide) (by decide),
   (C1_operator_validation "docs" "emb" false "greaterThan" (DBValue.real 2)).2.1
     3 VecDtype.f32 (by decide)⟩

/-! ## C4: full-text normalization on insert -/

/-- C4, counterexample: a full-text value containing two smart quotes.  Bulk
insert (`cmdInsertMany`) places the raw value in the FTS shadow insert
(no normalization at all), and single insert (`cmdInsert`) replaces only the
first occurrence — both differ from the claimed every-occurrence folding. -/
theorem C4_counterexample :
    cmdInsertMany "ft" [rowSmart] ftSchema =
      [Cmd.insertValues "ft" [[("id", DBValue.int 1)]],
       Cmd.insertValues "ft_fts5"
         [[("originPK", DBValue.int 1), ("body", DBValue.str "a“b“c")]]]
    ∧ (cmdInsert "ft" rowSmart ftSchema).get? 1 =
      some (Cmd.insertValues "ft_fts5"
        [[("originPK", DBValue.int 1), ("body", DBValue.str "a\"b“c")]])
    ∧ specNormalizeAllSmart "a“b“c" = "a\"b\"c"
    ∧ DBValue.str "a“b“c" ≠ DBValue.str "a\"b\"c"
    ∧ DBValue.str "a\"b“c" ≠ DBValue.str "a\"b\"c" :=
  ⟨by decide, by decide, by decide, by decide, by decide⟩

/-- C4 (amended): for a table with full-text columns, the single-row
`cmdInsert` FTS shadow insert carries the row's full-text values passed
through `normalizeString` — which replaces only the *first* occurrence of
each smart quote/apostrophe — while the bulk `cmdInsertMany` FTS shadow
insert carries the raw full-text values with no normalization at all. -/
theorem C4_insert_normalization :
    ∀ (tableName : String) (schema : DBSchema) (table : DBTable) (row : Row)
      (rows : List Row),
      lookupKey schema tableName = some table →
      0 < (getFullTextColumns table).length →
      (cmdInsert tableName row schema).get? 1
        = some (Cmd.insertValues (getFTS5VirtualTableName tableName)
            [(VTABLE_COLUMN_ORIGINPK, rowPkValue table row) ::
              normalizeStringValues (filterFullTextColumns row table)])
      ∧ (cmdInsertMany tableName rows schema).get? 1
        = some (Cmd.insertValues (getFTS5VirtualTableName tableName)
            (rows.map (fun r =>
              (VTABLE_COLUMN_ORIGINPK, rowPkValue table r) ::
                filterFullTextColumns r table))) := by
  intro tableName schema table row rows hlook hft
  constructor
  · by_cases hv : 0 < (getVectorColumns table).length <;>
      simp [cmdInsert, hlook, hft, hv]
  · by_cases hv : 0 < (getVectorColumns table).length <;>
      simp [cmdInsertMany, hlook, hft, hv]

/-- C4, witness. -/
theorem C4_witness :
    lookupKey ftSchema "ft" = some ftTable
    ∧ 0 < (getFullTextColumns ftTable).length
    ∧ (cmdInsert "ft" rowSmart ftSchema).get? 1
        = some (Cmd.insertValues (getFTS5VirtualTableName "ft")
            [(VTABLE_COLUMN_ORIGINPK, rowPkValue ftTable rowSmart) ::
              normalizeStringValues (filterFullTextColumns rowSmart ftTable)])
    ∧ (cmdInsertMany "ft" [rowSmart] ftSchema).get? 1
        = some (Cmd.insertValues (getFTS5VirtualTableName "ft")
            ([rowSmart].map (fun r =>
              (VTABLE_COLUMN_ORIGINPK, rowPkValue ftTable r) ::
                filterFullTextColumns r ftTable))) :=
  ⟨by decide, by decide,
   (C4_insert_normalization "ft" ftSchema ftTable rowSmart [rowSmart] (by decide) (by decide)).1,
   (C4_insert_normalization "ft" ftSchema ftTable rowSmart [rowSmart] (by decide) (by decide)).2⟩

/-! ## C7: shadow statements on update -/

/-- C7, counterexample: an update payload touching neither full-text nor
vector columns on a table that has a vector column.  The claim says no
vector-shadow statement is emitted; the code emits one (with an empty SET
list) both in `cmdUpdate` and in `cmdUpdateMany`. -/
theorem C7_counterexample :
    ((cmdUpdate "docs" (DBValue.int 1) updNoShadow docsSchema).filter
      (fun c => cmdTable c = "docs_vector")).length = 1
    ∧ ((cmdUpdateMany "docs" [updNoShadow] docsSchema).filter
      (fun c => cmdTable c = "docs_vector")).length = 1
    ∧ filterFullTextColumns updNoShadow docsTable = []
    ∧ filterAndSerializeVectorColumns updNoShadow docsTable = [] :=
  ⟨by decide, by decide, by decide, by decide⟩

/-- C7 (amended): if the update payload contains no full-text column then no
FTS-shadow statement is emitted — but a vector-shadow update statement is
emitted whenever the table has vector columns, regardless of whether the
payload contains a vector column (with an empty SET list when it does not);
likewise per row in `cmdUpdateMany`. -/
theorem C7_shadow_update_statements :
    ∀ (tableName : String) (schema : DBSchema) (table : DBTable) (pk : DBValue)
      (update : Row) (rows : List Row),
      lookupKey schema tableName = some table →
      (filterFullTextColumns update table = [] →
        cmdUpdate tableName pk update schema =
          [Cmd.updateSetWhereEq tableName
            (jsonSerializeColumnsForInsert schema tableName
              (filterNonVirtualColumns update table))
            table.primaryKey pk] ++
          (if 0 < (getVectorColumns table).length then
            [Cmd.updateSetWhereEq (getVectorVirtualTableName tableName)
              (filterAndSerializeVectorColumns update table) VTABLE_COLUMN_ORIGINPK pk]
          else []))
      ∧ (0 < (getVectorColumns table).length →
          Cmd.updateSetWhereEq (getVectorVirtualTableName tableName)
            (filterAndSerializeVectorColumns update table) VTABLE_COLUMN_ORIGINPK pk
            ∈ cmdUpdate tableName pk update schema)
      ∧ ((∀ r ∈ rows, filterFullTextColumns r table = []) → rows ≠ [] →
          cmdUpdateMany tableName rows schema =
            rows.map (fun r => Cmd.updateSetWhereEq tableName
              (jsonSerializeColumnsForInsert schema tableName
                (filterNonVirtualColumns r table))
              table.primaryKey (rowPkValue table r)) ++
            (if 0 < (getVectorColumns table).length then
              rows.map (fun r => Cmd.updateSetWhereEq (getVectorVirtualTableName tableName)
                (filterAndSerializeVectorColumns r table) VTABLE_COLUMN_ORIGINPK
                (rowPkValue table r))
            else [])) := by
  intro tableName schema table pk update rows hlook
  refine ⟨?_, ?_, ?_⟩
  · intro hempty
    by_cases hft : 0 < (getFullTextColumns table).length <;>
      by_cases hv : 0 < (getVectorColumns table).length <;>
        simp [cmdUpdate, hlook, hft, hv, hempty]
  · intro hv
    by_cases hft : 0 < (getFullTextColumns table).length <;>
      by_cases hemp : 0 < (filterFullTextColumns update table).length <;>
        simp [cmdUpdate, hlook, hft, hv, hemp]
  · intro hempty hne
    have hlen : ¬ rows.length = 0 := by
      simpa [List.length_eq_zero] using hne
    have hmapnil : (rows.filterMap (fun r =>
        let fts5Values := filterFullTextColumns r table
        if 0 < fts5Values.length then
          some (Cmd.updateSetWhereEq (getFTS5VirtualTableName tableName) fts5Values
            VTABLE_COLUMN_ORIGINPK (rowPkValue table r))
        else none)) = [] := by
      rw [List.filterMap_eq_nil_iff]
      intro r hr
      simp [hempty r hr]
    by_cases hft : 0 < (getFullTextColumns table).length <;>
      by_cases hv : 0 < (getVectorColumns table).length <;>
        simp [cmdUpdateMany, hlook, hlen, hft, hv, hmapnil]

/-- C7, witness. -/
theorem C7_witness :
    filterFullTextColumns updNoShadow docsTable = []
    ∧ cmdUpdate "docs" (DBValue.int 1) updNoShadow docsSchema =
        [Cmd.updateSetWhereEq "docs"
          (jsonSerializeColumnsForInsert docsSchema "docs"
            (filterNonVirtualColumns updNoShadow docsTable))
          docsTable.primaryKey (DBValue.int 1)] ++
        (if 0 < (getVectorColumns docsTable).length then
          [Cmd.updateSetWhereEq (getVectorVirtualTableName "docs")
            (filterAndSerializeVectorColumns updNoShadow docsTable) VTABLE_COLUMN_ORIGINPK
            (DBValue.int 1)]
        else [])
    ∧ Cmd.updateSetWhereEq (getVectorVirtualTableName "docs")
        (filterAndSerializeVectorColumns updNoShadow docsTable) VTABLE_COLUMN_ORIGINPK
        (DBValue.int 1) ∈ cmdUpdate "docs" (DBValue.int 1) updNoShadow docsSchema :=
  ⟨by decide,
   (C7_shadow_update_statements "docs" docsSchema docsTable (DBValue.int 1) updNoShadow []
     (by decide)).1 (by decide),
   (C7_shadow_update_statements "docs" docsSchema docsTable (DBValue.int 1) updNoShadow []
     (by decide)).2.1 (by decide)⟩

/-! ## C9: full-text / vector primary keys are rejected at create-table time -/

theorem foldlM_except_error {α β : Type} (f : β → α → Except String β) (l : List α) :
    ∀ (acc : β), (∃ x ∈ l, ∀ a, ∃ msg, f a x = Except.error msg) →
      ∃ msg, l.foldlM f acc = Except.error msg := by
  induction l with
  | nil =>
    intro acc h
    rcases h with ⟨x, hx, _⟩
    cases hx
  | cons y t ih =>
    intro acc h
    rcases h with ⟨x, hx, herr⟩
    rcases List.mem_cons.mp hx with he | hxt
    · rcases herr acc with ⟨msg, hmsg⟩
      rw [he] at hmsg
      refine ⟨msg, ?_⟩
      rw [List.foldlM_cons, hmsg]
      rfl
    · cases hfy : f acc y with
      | error msg =>
        refine ⟨msg, ?_⟩
        rw [List.foldlM_cons, hfy]
        rfl
      | ok acc2 =>
        rcases ih acc2 ⟨x, hxt, herr⟩ with ⟨msg, hmsg⟩
        refine ⟨msg, ?_⟩
        rw [List.foldlM_cons, hfy]
        exact hmsg

/-- C9: if any table's declared primary-key column is of full-text or vector
type, `cmdCreateTables` throws before returning any CREATE statement (a
full-text primary key is rejected by `createTableCommand`, a vector primary
key by `typeofColumn` inside `createVectorTableCommand`). -/
theorem C9_virtual_primary_key_rejected :
    ∀ (schema : DBSchema) (t : String) (table : DBTable) (ct : DBColumnType),
      lookupKey schema t = some table →
      lookupKey table.columns table.primaryKey = some ct →
      (ct.kind = DBColumnKind.fullTextString ∨ ∃ d dt, ct.kind = DBColumnKind.vector d dt) →
      ∃ msg, cmdCreateTables schema = Except.error msg := by
  intro schema t table ct hlook hpk hkind
  unfold cmdCreateTables
  apply foldlM_except_error
  refine ⟨(t, table), lookupKey_mem hlook, ?_⟩
  intro acc
  cases hcmd : createTableCommand t schema with
  | error msg => exact ⟨msg, rfl⟩
  | ok c =>
    rcases hkind with hft | ⟨d, dt, hvec⟩
    · exfalso
      have hcmd0 : createTableCommand t schema = Except.error
          "Primary key cannot be a full-text column" := by
        simp [createTableCommand, hlook, hpk, hft]
      rw [hcmd0] at hcmd
      cases hcmd
    · have hmem : (table.primaryKey, ct) ∈ table.columns.filter (fun p =>
          match p.2.kind with
          | DBColumnKind.vector _ _ => true
          | _ => false) := by
        refine List.mem_filter.mpr ⟨lookupKey_mem hpk, ?_⟩
        rw [hvec]
      have hne : ¬ (table.columns.filter (fun p =>
          match p.2.kind with
          | DBColumnKind.vector _ _ => true
          | _ => false)).length = 0 := by
        intro h0
        rw [List.length_eq_zero] at h0
        rw [h0] at hmem
        cases hmem
      have htc : typeofColumn (schema.length + 1) ct schema = Except.error
          "Vectors should not be used in CREATE TABLE statements" := by
        unfold typeofColumn
        rw [hvec]
      have hvcmd : createVectorTableCommand t schema = Except.error
          "Vectors should not be used in CREATE TABLE statements" := by
        simp [createVectorTableCommand, hlook, hpk, hne, htc, Except.bind]
      refine ⟨"Vectors should not be used in CREATE TABLE statements", ?_⟩
      cases hfts : createFTS5TableCommand t schema <;> simp [Except.bind, hvcmd]

/-- C9, witness: a schema whose primary key is a vector column and one whose
primary key is a full-text column are both rejected. -/
theorem C9_witness :
    lookupKey vecPkSchema "vpk" = some (DBTable.mk [("e", colVec3)] "e")
    ∧ (∃ msg, cmdCreateTables vecPkSchema = Except.error msg)
    ∧ (∃ msg, cmdCreateTables ftPkSchema = Except.error msg) :=
  ⟨by decide,
   C9_virtual_primary_key_rejected vecPkSchema "vpk" (DBTable.mk [("e", colVec3)] "e")
     colVec3 (by decide) (by decide) (Or.inr ⟨3, VecDtype.f32, rfl⟩),
   C9_virtual_primary_key_rejected ftPkSchema "fpk" (DBTable.mk [("b", colFT)] "b")
     colFT (by decide) (by decide) (Or.inl rfl)⟩

/-! ## C8: foreign-key resolution drops unresolvable rows -/

theorem resolveSubstLoop_eq (maps : List (String × List (Option DBValue × Row)))
    (fkCols : List String) (r : Row) :
    ∀ out, resolveSubstLoop maps fkCols r out =
      if fkCols.all (fun col =>
          (jsMapGet ((lookupKey maps col).getD []) (rowLookup r col)).isSome) then
        some (fkCols.foldl (fun o col =>
          rrowSet o col (RVal.rrow
            ((jsMapGet ((lookupKey maps col).getD []) (rowLookup r col)).getD []))) out)
      else none := by
  induction fkCols with
  | nil => intro out; simp [resolveSubstLoop]
  | cons col rest ih =>
    intro out
    unfold resolveSubstLoop
    cases hm : jsMapGet ((lookupKey maps col).getD []) (rowLookup r col) with
    | none => simp [hm]
    | some tgt => simp [hm, ih]

theorem reduceOption_map_ite {α β : Type} (l : List α) (g : α → Bool) (h : α → β) :
    (l.map (fun a => if g a then some (h a) else none)).reduceOption
      = (l.filter g).map h := by
  induction l with
  | nil => rfl
  | cons a t ih =>
    by_cases hg : g a <;> simp [hg, List.reduceOption_cons_of_some,
      List.reduceOption_cons_of_none, ih]

/-- C8: `resolveForeignKeys` returns exactly those input rows all of whose
foreign-key values resolve, in input order, with each foreign-key value
replaced by the fully resolved target row; any row with at least one
unresolvable foreign-key value is omitted from the result entirely. -/
theorem C8_resolve_foreign_keys :
    ∀ (jsonParse : String → DBValue) (state : String → List Row) (schema : DBSchema)
      (table : String) (rows : List Row),
      resolveForeignKeysModel jsonParse state schema table rows
        = resolveForeignKeysSpec jsonParse state schema table rows := by
  intro jp st schema table rows
  unfold resolveForeignKeysModel resolveForeignKeysSpec
  cases hlook : lookupKey schema table with
  | none => rfl
  | some tableSchema =>
    dsimp only
    rw [List.map_congr_left (fun r _ => resolveSubstLoop_eq
      (resolveMapsOf jp st schema tableSchema rows) (foreignKeyColumnNames tableSchema) r
      (r.map (fun p => (p.1, RVal.prim p.2))))]
    exact reduceOption_map_ite rows _ _

/-! ## C3: upsert conflict policy -/

theorem rowLookup_map_keyfun (l : Row) (g : String → DBValue → DBValue) (c : String) :
    rowLookup (l.map (fun p => (p.1, g p.1 p.2))) c = (rowLookup l c).map (g c) := by
  induction l with
  | nil => rfl
  | cons p t ih =>
    unfold rowLookup lookupKey at *
    rw [List.map_cons]
    by_cases hc : p.1 = c
    · rw [List.find?_cons_of_pos _ (by simpa using hc),
        List.find?_cons_of_pos _ (by simpa using hc)]
      simp [hc]
    · rw [List.find?_cons_of_neg _ (by simpa using hc),
        List.find?_cons_of_neg _ (by simpa using hc)]
      exact ih

theorem nonVirtualPred_iff (k : DBColumnKind) :
    (match k with
     | DBColumnKind.fullTextString => false
     | DBColumnKind.vector _ _ => false
     | _ => true) = true
    ↔ (k ≠ DBColumnKind.fullTextString ∧ ∀ d dt, k ≠ DBColumnKind.vector d dt) := by
  cases k <;> simp

theorem cmdUpsertMany_head (tableName : String) (rows : List Row) (schema : DBSchema)
    (table : DBTable) (hlook : lookupKey schema tableName = some table) (hne : rows ≠ []) :
    (cmdUpsertMany tableName rows schema).head? =
      some (Cmd.insertOnConflict tableName
        (rows.map (fun row =>
          jsonSerializeColumnsForInsert schema tableName (filterNonVirtualColumns row table)))
        (if 0 < (relevantUpdateOnConflictColumns table).length then
          ConflictPolicy.updateSet table.primaryKey
            ((relevantUpdateOnConflictColumns table).map (fun p => p.1))
        else ConflictPolicy.doNothing)) := by
  have hlen : ¬ rows.length = 0 := by simpa [List.length_eq_zero] using hne
  by_cases hft : 0 < (getFullTextColumns table).length <;>
    by_cases hv : 0 < (getVectorColumns table).length <;>
      by_cases he : 0 < (relevantUpdateOnConflictColumns table).length <;>
        simp [cmdUpsertMany, hlook, hlen, hft, hv, he]

/-- C3: the main-table statement of `cmdUpsertMany` is an insert whose
on-conflict clause targets the primary key and updates exactly the
non-virtual, non-primary-key columns not flagged `noReplaceOnUpsert`
(`DO NOTHING` when none is eligible); consequently upserting two rows with
the same primary key yields one stored row whose eligible columns carry the
second write's values and whose other columns keep the first write's. -/
theorem C3_upsert_conflict_policy :
    (∀ (schema : DBSchema) (t : String) (table : DBTable) (rows : List Row) (c : String),
      lookupKey schema t = some table → rows ≠ [] →
      (table.columns.map Prod.fst).Nodup →
      (cmdUpsertMany t rows schema).head? =
        some (Cmd.insertOnConflict t
          (rows.map (fun row =>
            jsonSerializeColumnsForInsert schema t (filterNonVirtualColumns row table)))
          (if 0 < (relevantUpdateOnConflictColumns table).length then
            ConflictPolicy.updateSet table.primaryKey
              ((relevantUpdateOnConflictColumns table).map (fun p => p.1))
          else ConflictPolicy.doNothing))
      ∧ (c ∈ (relevantUpdateOnConflictColumns table).map Prod.fst ↔
          ∃ ct, lookupKey table.columns c = some ct
            ∧ ct.kind ≠ DBColumnKind.fullTextString
            ∧ (∀ d dt, ct.kind ≠ DBColumnKind.vector d dt)
            ∧ ct.noReplaceOnUpsert = false
            ∧ c ≠ table.primaryKey))
    ∧ (∀ (schema : DBSchema) (t : String) (table : DBTable) (r1 r2 : Row) (c : String)
        (v1 v2 : DBValue),
      lookupKey schema t = some table →
      rowLookup (jsonSerializeColumnsForInsert schema t (filterNonVirtualColumns r1 table))
          table.primaryKey
        = rowLookup (jsonSerializeColumnsForInsert schema t (filterNonVirtualColumns r2 table))
          table.primaryKey →
      ∃ st1, applyMainUpsert t [r2] schema (applyMainUpsert t [r1] schema []) = [st1]
        ∧ (c ∈ (relevantUpdateOnConflictColumns table).map Prod.fst →
            rowLookup (jsonSerializeColumnsForInsert schema t
              (filterNonVirtualColumns r1 table)) c = some v1 →
            rowLookup (jsonSerializeColumnsForInsert schema t
              (filterNonVirtualColumns r2 table)) c = some v2 →
            rowLookup st1 c = some v2)
        ∧ (c ∉ (relevantUpdateOnConflictColumns table).map Prod.fst →
            rowLookup st1 c
              = rowLookup (jsonSerializeColumnsForInsert schema t
                  (filterNonVirtualColumns r1 table)) c)) := by
  constructor
  · intro schema t table rows c hlook hne hnd
    refine ⟨cmdUpsertMany_head t rows schema table hlook hne, ?_⟩
    constructor
    · intro hc
      rcases List.mem_map.mp hc with ⟨p, hp, hpc⟩
      rcases List.mem_filter.mp ((by
        simpa [relevantUpdateOnConflictColumns] using hp :
          p ∈ (table.columns.filter (fun q =>
            match q.2.kind with
            | DBColumnKind.fullTextString => false
            | DBColumnKind.vector _ _ => false
            | _ => true)).filter (fun q => !q.2.noReplaceOnUpsert && q.1 ≠ table.primaryKey)))
        with ⟨hp1, hpred2⟩
      rcases List.mem_filter.mp hp1 with ⟨hpcols, hpred1⟩
      have hk := (nonVirtualPred_iff p.2.kind).mp hpred1
      simp only [Bool.and_eq_true, Bool.not_eq_true', decide_eq_true_eq] at hpred2
      refine ⟨p.2, ?_, hk.1, hk.2, hpred2.1, hpc ▸ hpred2.2⟩
      rw [← hpc]
      exact (lookupKey_eq_some_iff hnd p.1 p.2).mpr (by simpa using hpcols)
    · rintro ⟨ct, hct, hk1, hk2, hnr, hcpk⟩
      refine List.mem_map.mpr ⟨(c, ct), ?_, rfl⟩
      unfold relevantUpdateOnConflictColumns
      refine List.mem_filter.mpr ⟨List.mem_filter.mpr ⟨lookupKey_mem hct, ?_⟩, ?_⟩
      · exact (nonVirtualPred_iff ct.kind).mpr ⟨hk1, hk2⟩
      · simp [hnr, hcpk]
  · intro schema t table r1 r2 c v1 v2 hlook hpk
    have hhead1 := cmdUpsertMany_head t [r1] schema table hlook (by simp)
    have hhead2 := cmdUpsertMany_head t [r2] schema table hlook (by simp)
    set s1 := jsonSerializeColumnsForInsert schema t (filterNonVirtualColumns r1 table) with hs1
    set s2 := jsonSerializeColumnsForInsert schema t (filterNonVirtualColumns r2 table) with hs2
    set policy := (if 0 < (relevantUpdateOnConflictColumns table).length then
        ConflictPolicy.updateSet table.primaryKey
          ((relevantUpdateOnConflictColumns table).map (fun p => p.1))
      else ConflictPolicy.doNothing) with hpolicy
    have happly1 : applyMainUpsert t [r1] schema [] = [s1] := by
      unfold applyMainUpsert
      rw [hhead1]
      dsimp only
      rw [hlook]
      simp [insertOneOnConflict]
    have happly2 : applyMainUpsert t [r2] schema [s1]
        = [applyConflictPolicy policy s1 s2] := by
      unfold applyMainUpsert
      rw [hhead2]
      dsimp only
      rw [hlook]
      simp [insertOneOnConflict, hpk]
    refine ⟨applyConflictPolicy policy s1 s2, by rw [happly1, happly2], ?_, ?_⟩
    · intro hc hv1 hv2
      by_cases he : 0 < (relevantUpdateOnConflictColumns table).length
      · have hcn : c ∈ (relevantUpdateOnConflictColumns table).map (fun p => p.1) := hc
        rw [hpolicy, if_pos he]
        have hmapform : applyConflictPolicy
            (ConflictPolicy.updateSet table.primaryKey
              ((relevantUpdateOnConflictColumns table).map (fun p => p.1))) s1 s2
            = s1.map (fun p =>
                (p.1, if p.1 ∈ (relevantUpdateOnConflictColumns table).map (fun q => q.1) then
                  (rowLookup s2 p.1).getD p.2 else p.2)) := by
          unfold applyConflictPolicy
          apply List.map_congr_left
          intro p _
          by_cases hp : p.1 ∈ (relevantUpdateOnConflictColumns table).map (fun q => q.1) <;>
            simp [hp]
        rw [hmapform, rowLookup_map_keyfun s1
          (fun k v => if k ∈ (relevantUpdateOnConflictColumns table).map (fun q => q.1) then
            (rowLookup s2 k).getD v else v) c, hv1]
        simp [hcn, hv2]
      · exfalso
        rw [Nat.pos_iff_ne_zero, not_not, List.length_eq_zero] at he
        rw [he] at hc
        simp at hc
    · intro hc
      by_cases he : 0 < (relevantUpdateOnConflictColumns table).length
      · have hcn : c ∉ (relevantUpdateOnConflictColumns table).map (fun p => p.1) := hc
        rw [hpolicy, if_pos he]
        have hmapform : applyConflictPolicy
            (ConflictPolicy.updateSet table.primaryKey
              ((relevantUpdateOnConflictColumns table).map (fun p => p.1))) s1 s2
            = s1.map (fun p =>
                (p.1, if p.1 ∈ (relevantUpdateOnConflictColumns table).map (fun q => q.1) then
                  (rowLookup s2 p.1).getD p.2 else p.2)) := by
          unfold applyConflictPolicy
          apply List.map_congr_left
          intro p _
          by_cases hp : p.1 ∈ (relevantUpdateOnConflictColumns table).map (fun q => q.1) <;>
            simp [hp]
        rw [hmapform, rowLookup_map_keyfun s1
          (fun k v => if k ∈ (relevantUpdateOnConflictColumns table).map (fun q => q.1) then
            (rowLookup s2 k).getD v else v) c]
        cases hval : rowLookup s1 c <;> simp [hcn]
      · rw [hpolicy, if_neg he]
        rfl

/-- C3, witness: upserting `{id 1, name "x", keep "y"}` then
`{id 1, name "x2", keep "y2"}` into a table whose `keep` column is flagged
`noReplaceOnUpsert` keeps one row with `name = "x2"` and `keep = "y"`. -/
theorem C3_witness :
    ((cmdUpsertMany "notes" [noteRow1] notesSchema).head? =
      some (Cmd.insertOnConflict "notes"
        ([noteRow1].map (fun row =>
          jsonSerializeColumnsForInsert notesSchema "notes"
            (filterNonVirtualColumns row notesTable)))
        (if 0 < (relevantUpdateOnConflictColumns notesTable).length then
          ConflictPolicy.updateSet notesTable.primaryKey
            ((relevantUpdateOnConflictColumns notesTable).map (fun p => p.1))
        else ConflictPolicy.doNothing))
      ∧ ("name" ∈ (relevantUpdateOnConflictColumns notesTable).map Prod.fst ↔
          ∃ ct, lookupKey notesTable.columns "name" = some ct
            ∧ ct.kind ≠ DBColumnKind.fullTextString
            ∧ (∀ d dt, ct.kind ≠ DBColumnKind.vector d dt)
            ∧ ct.noReplaceOnUpsert = false
            ∧ "name" ≠ notesTable.primaryKey))
    ∧ (∃ st1, applyMainUpsert "notes" [noteRow2] notesSchema
          (applyMainUpsert "notes" [noteRow1] notesSchema []) = [st1]
        ∧ ("name" ∈ (relevantUpdateOnConflictColumns notesTable).map Prod.fst →
            rowLookup (jsonSerializeColumnsForInsert notesSchema "notes"
              (filterNonVirtualColumns noteRow1 notesTable)) "name" = some (DBValue.str "x") →
            rowLookup (jsonSerializeColumnsForInsert notesSchema "notes"
              (filterNonVirtualColumns noteRow2 notesTable)) "name" = some (DBValue.str "x2") →
            rowLookup st1 "name" = some (DBValue.str "x2"))
        ∧ ("keep" ∉ (relevantUpdateOnConflictColumns notesTable).map Prod.fst →
            rowLookup st1 "keep"
              = rowLookup (jsonSerializeColumnsForInsert notesSchema "notes"
                  (filterNonVirtualColumns noteRow1 notesTable)) "keep")) := by
  constructor
  · exact C3_upsert_conflict_policy.1 notesSchema "notes" notesTable [noteRow1] "name"
      (by decide) (by decide) (by decide)
  · rcases C3_upsert_conflict_policy.2 notesSchema "notes" notesTable noteRow1 noteRow2 "name"
      (DBValue.str "x") (DBValue.str "x2") (by decide) (by decide) with ⟨st1, h1, h2, -⟩
    rcases C3_upsert_conflict_policy.2 notesSchema "notes" notesTable noteRow1 noteRow2 "keep"
      (DBValue.null) (DBValue.null) (by decide) (by decide) with ⟨st2, h3, -, h4⟩
    have hst : st2 = st1 := by
      rw [h1] at h3
      exact (List.cons.injEq _ _ _ _ ▸ h3).1.symm
    exact ⟨st1, h1, h2, hst ▸ h4⟩

/-! ## C10: double update notification from `updateRow` -/

theorem filterMap_const_none {α β : Type} (l : List α) :
    (l.filterMap (fun _ => (none : Option β))) = [] := by
  induction l <;> simp_all

theorem emitUpdatesLocked_connExecs (d : Nat) (cs : List Cmd) (rest : List DBAction) :
    emitUpdatesLocked d (cs.map DBAction.connExec ++ rest) = emitUpdatesLocked d rest := by
  induction cs with
  | nil => rfl
  | cons c t ih =>
    rw [List.map_cons, List.cons_append]
    exact ih

theorem count_map_pair (cbs : List Nat) (cb : Nat) (p : String × List Row) :
    ((cbs.map (fun c => (c, p))).count (cb, p)) = cbs.count cb := by
  induction cbs with
  | nil => rfl
  | cons a t ih =>
    by_cases ha : a = cb <;> simp [List.count_cons, ha, ih]

/-- C10: one `updateRow` call emits the row-update event exactly twice with
the same payload `{table, rows: [values]}` — once from the nested
`updateRows` call and once from `updateRow` itself — both while the
serialization lock is held, so each registered row-update callback is
invoked exactly twice with that payload. -/
theorem C10_update_row_double_notification :
    ∀ (table : String) (values : Row) (schema : DBSchema) (cbs : List Nat) (cb : Nat),
      cbs.Nodup → cb ∈ cbs →
      emitUpdatesOf (updateRowProg table values schema)
        = [(table, [values]), (table, [values])]
      ∧ emitUpdatesLocked 0 (updateRowProg table values schema) = true
      ∧ (observerInvocations cbs (updateRowProg table values schema)).count
          (cb, (table, [values])) = 2 := by
  intro table values schema cbs cb hnd hcb
  have h1 : emitUpdatesOf (updateRowProg table values schema)
      = [(table, [values]), (table, [values])] := by
    unfold updateRowProg mutexWrap updateRowsBody emitUpdatesOf
    simp [List.filterMap_append, List.filterMap_map, filterMap_const_none]
  refine ⟨h1, ?_, ?_⟩
  · unfold updateRowProg mutexWrap updateRowsBody
    simp only [List.cons_append, List.append_assoc]
    rw [show ∀ l, emitUpdatesLocked 0 (DBAction.lock :: l) = emitUpdatesLocked 1 l from
      fun l => rfl]
    rw [emitUpdatesLocked_connExecs]
    rfl
  · unfold observerInvocations
    rw [h1]
    simp only [List.flatMap_cons, List.flatMap_nil, List.append_nil, List.count_append]
    rw [count_map_pair cbs cb (table, [values]), List.count_eq_one_of_mem hnd hcb]

/-- C10, witness: two distinct registered callbacks; each is invoked exactly
twice with the same payload by one `updateRow`. -/
theorem C10_witness :
    ([5, 9] : List Nat).Nodup ∧ (5 : Nat) ∈ ([5, 9] : List Nat)
    ∧ emitUpdatesOf (updateRowProg "notes" noteRow1 notesSchema)
        = [("notes", [noteRow1]), ("notes", [noteRow1])]
    ∧ emitUpdatesLocked 0 (updateRowProg "notes" noteRow1 notesSchema) = true
    ∧ (observerInvocations [5, 9] (updateRowProg "notes" noteRow1 notesSchema)).count
        (5, ("notes", [noteRow1])) = 2 :=
  ⟨by decide, by decide,
   (C10_update_row_double_notification "notes" noteRow1 notesSchema [5, 9] 5
     (by decide) (by decide)).1,
   (C10_update_row_double_notification "notes" noteRow1 notesSchema [5, 9] 5
     (by decide) (by decide)).2.1,
   (C10_update_row_double_notification "notes" noteRow1 notesSchema [5, 9] 5
     (by decide) (by decide)).2.2⟩

/-! ## C5: vector distance sentinel -/

theorem string_append_left_cancel {s a b : String} (h : s ++ a = s ++ b) : a = b := by
  have hd : (s ++ a).data = (s ++ b).data := congrArg String.data h
  rw [String.data_append, String.data_append] at hd
  exact String.ext (List.append_cancel_left hd)

theorem string_append_right_cancel {s a b : String} (h : a ++ s = b ++ s) : a = b := by
  have hd : (a ++ s).data = (b ++ s).data := congrArg String.data h
  rw [String.data_append, String.data_append] at hd
  exact String.ext (List.append_cancel_right hd)

theorem distColumnName_inj {a b : String}
    (h : getVectorDistanceColumnName a = getVectorDistanceColumnName b) : a = b :=
  string_append_left_cancel h

theorem rowLookup_append_of_left_none (l1 l2 : Row) (c : String)
    (h : rowLookup l1 c = none) : rowLookup (l1 ++ l2) c = rowLookup l2 c := by
  induction l1 with
  | nil => rfl
  | cons p t ih =>
    unfold rowLookup lookupKey at *
    by_cases hc : p.1 = c
    · rw [List.find?_cons_of_pos _ (by simpa using hc)] at h
      simp at h
    · rw [List.find?_cons_of_neg _ (by simpa using hc)] at h
      rw [List.cons_append, List.find?_cons_of_neg _ (by simpa using hc)]
      exact ih h

theorem deserializeColumnEntry_key (jsonParse : String → DBValue) (row : Row)
    (p : String × DBColumnType) :
    (deserializeColumnEntry jsonParse row p).1 = p.1
    ∨ (deserializeColumnEntry jsonParse row p).1 = getVectorDistanceColumnName p.1 := by
  unfold deserializeColumnEntry
  rcases p with ⟨name, ⟨kind, flag⟩⟩
  cases kind <;> simp

theorem deserialize_cols_distance_lookup (jsonParse : String → DBValue) (row : Row)
    (c : String) :
    ∀ (cols : List (String × DBColumnType)),
      (∀ p ∈ cols, p.1 ≠ getVectorDistanceColumnName c) →
      (∃ ct, lookupKey cols c = some ct ∧ ∃ d dt, ct.kind = DBColumnKind.vector d dt) →
      rowLookup (cols.map (deserializeColumnEntry jsonParse row))
          (getVectorDistanceColumnName c)
        = some ((rowLookup row (getVectorDistanceColumnName c)).getD DBValue.null) := by
  intro cols
  induction cols with
  | nil =>
    intro _ hex
    rcases hex with ⟨ct, hct, _⟩
    cases hct
  | cons p t ih =>
    intro hnc hex
    rcases hex with ⟨ct, hct, d, dt, hkind⟩
    rw [List.map_cons]
    by_cases hpc : p.1 = c
    · have hctp : ct = p.2 := by
        unfold lookupKey at hct
        rw [List.find?_cons_of_pos _ (by simpa using hpc)] at hct
        simpa using hct.symm
      subst hctp
      have hent : deserializeColumnEntry jsonParse row p
          = (getVectorDistanceColumnName p.1,
             (rowLookup row (getVectorDistanceColumnName p.1)).getD DBValue.null) := by
        unfold deserializeColumnEntry
        rw [hkind]
      rw [hent, ← hpc]
      exact lookupKey_cons_self _ _ _
    · have hkeyne : ¬ ((deserializeColumnEntry jsonParse row p).1
          = getVectorDistanceColumnName c) := by
        rcases deserializeColumnEntry_key jsonParse row p with h1 | h2
        · rw [h1]
          exact hnc p (List.mem_cons_self p t)
        · rw [h2]
          intro heq
          exact hpc (distColumnName_inj heq)
      unfold rowLookup lookupKey
      rw [List.find?_cons_of_neg _ (by simpa using hkeyne)]
      have hct2 : lookupKey t c = some ct := by
        unfold lookupKey at hct
        rw [List.find?_cons_of_neg _ (by simpa using hpc)] at hct
        exact hct
      exact ih (fun q hq => hnc q (List.mem_cons_of_mem p hq)) ⟨ct, hct2, d, dt, hkind⟩

theorem entries_distance_lookup (matchDist : String → Option ℚ)
    (qmap : List (String × List Int)) (c : String) (qv : List Int) :
    ∀ (vcols : List String), vcols.Nodup → c ∈ vcols → lookupKey qmap c = some qv →
      rowLookup
        (((vcols.filterMap (fun c2 =>
            (lookupKey qmap c2).map (fun _ => TempTableSpec.mk (c2 ++ "_matches") c2))).map
          (fun tt => (getVectorDistanceColumnName tt.columnName, tt.tempTableName))).map
            (fun p => (p.1, DBValue.real ((matchDist p.2).getD distanceSentinel))))
        (getVectorDistanceColumnName c)
      = some (DBValue.real ((matchDist (c ++ "_matches")).getD distanceSentinel)) := by
  intro vcols
  induction vcols with
  | nil => intro _ hc; cases hc
  | cons c2 t ih =>
    intro hnd hc hq
    cases hq2 : lookupKey qmap c2 with
    | none =>
      have hcn : c ∈ t := by
        rcases List.mem_cons.mp hc with he | h
        · rw [← he] at hq2
          rw [hq2] at hq
          cases hq
        · exact h
      simp only [List.filterMap_cons, hq2]
      exact ih (List.nodup_cons.mp hnd).2 hcn hq
    | some v =>
      simp only [List.filterMap_cons, hq2, Option.map_some', List.map_cons]
      by_cases hcc : c2 = c
      · subst hcc
        exact lookupKey_cons_self _ _ _
      · have hcn : c ∈ t := by
          rcases List.mem_cons.mp hc with he | h
          · exact absurd he.symm hcc
          · exact h
        unfold rowLookup lookupKey
        rw [List.find?_cons_of_neg _ (by
          simp only [decide_eq_true_eq]
          intro heq
          exact hcc (distColumnName_inj heq))]
        exact ih (List.nodup_cons.mp hnd).2 hcn hq

theorem mem_getVectorColumns {table : DBTable} {c : String} {ct : DBColumnType}
    {d : Nat} {dt : VecDtype}
    (hmem : (c, ct) ∈ table.columns) (hkind : ct.kind = DBColumnKind.vector d dt) :
    c ∈ getVectorColumns table := by
  unfold getVectorColumns
  refine List.mem_map.mpr ⟨(c, ct), List.mem_filter.mpr ⟨hmem, ?_⟩, rfl⟩
  rw [hkind]

theorem nodup_getVectorColumns {table : DBTable}
    (h : (table.columns.map Prod.fst).Nodup) : (getVectorColumns table).Nodup := by
  unfold getVectorColumns
  exact h.sublist ((List.filter_sublist _).map Prod.fst)

/-- C5: for a select carrying a vector query, the deserialized result's
`$distance_<column>` field of a queried vector column equals the engine's
computed distance for rows in the CTE's top-k matches, and equals exactly
`coalesce`'s `1e999` sentinel otherwise — never null; for a select with no
vector query the field is null. -/
theorem C5_distance_sentinel :
    ∀ (jsonParse : String → DBValue) (schema : DBSchema) (tableSchema : DBTable)
      (query : QueryDescr) (limit : Option Nat) (matchDist : String → Option ℚ)
      (baseRow : Row) (c : String) (ct : DBColumnType) (d : Nat) (dt : VecDtype),
      lookupKey schema query.tableName = some tableSchema →
      lookupKey tableSchema.columns c = some ct →
      ct.kind = DBColumnKind.vector d dt →
      (tableSchema.columns.map Prod.fst).Nodup →
      (∀ p ∈ tableSchema.columns, p.1 ≠ getVectorDistanceColumnName c) →
      rowLookup baseRow (getVectorDistanceColumnName c) = none →
      (∀ vq qv, query.vectorQuery = some vq → lookupKey vq.queryVectors c = some qv →
        rowLookup (deserializeSpecialColumns jsonParse schema query.tableName
            (evalSelectRow matchDist baseRow (cmdSelectModel query schema limit)))
          (getVectorDistanceColumnName c)
          = some (DBValue.real ((matchDist (c ++ "_matches")).getD distanceSentinel)))
      ∧ (query.vectorQuery = none →
        rowLookup (deserializeSpecialColumns jsonParse schema query.tableName
            (evalSelectRow matchDist baseRow (cmdSelectModel query schema limit)))
          (getVectorDistanceColumnName c)
          = some DBValue.null) := by
  intro jp schema tableSchema query limit matchDist baseRow c ct d dt
    hlook hct hkind hnd hnc hbase
  have hdeser : ∀ row : Row,
      rowLookup (deserializeSpecialColumns jp schema query.tableName row)
        (getVectorDistanceColumnName c)
        = some ((rowLookup row (getVectorDistanceColumnName c)).getD DBValue.null) := by
    intro row
    unfold deserializeSpecialColumns
    rw [hlook]
    exact deserialize_cols_distance_lookup jp row c tableSchema.columns hnc
      ⟨ct, hct, d, dt, hkind⟩
  constructor
  · intro vq qv hvq hqv
    have hrowA : rowLookup (evalSelectRow matchDist baseRow (cmdSelectModel query schema limit))
        (getVectorDistanceColumnName c)
        = some (DBValue.real ((matchDist (c ++ "_matches")).getD distanceSentinel)) := by
      unfold evalSelectRow
      rw [rowLookup_append_of_left_none _ _ _ hbase]
      unfold evalDistanceSelects cmdSelectModel vectorTempTables
      rw [hvq, hlook]
      exact entries_distance_lookup matchDist vq.queryVectors c qv
        (getVectorColumns tableSchema) (nodup_getVectorColumns hnd)
        (mem_getVectorColumns (lookupKey_mem hct) hkind) hqv
    rw [hdeser, hrowA]
    rfl
  · intro hvq
    have hrowB : rowLookup (evalSelectRow matchDist baseRow (cmdSelectModel query schema limit))
        (getVectorDistanceColumnName c) = none := by
      unfold evalSelectRow evalDistanceSelects cmdSelectModel vectorTempTables
      rw [hvq]
      simpa using hbase
    rw [hdeser, hrowB]
    rfl

/-- C5, witness: with `k = 1` over `docs.emb`, a matched row's distance field
carries the computed distance `1/2`, an unmatched row's carries exactly the
`1e999` sentinel, and without a vector query the field is null. -/
theorem C5_witness :
    (rowLookup (deserializeSpecialColumns (fun _ => DBValue.null) docsSchema "docs"
        (evalSelectRow (fun _ => some (1 / 2 : ℚ)) [] (cmdSelectModel q1 docsSchema none)))
      (getVectorDistanceColumnName "emb") = some (DBValue.real (1 / 2)))
    ∧ (rowLookup (deserializeSpecialColumns (fun _ => DBValue.null) docsSchema "docs"
        (evalSelectRow (fun _ => none) [] (cmdSelectModel q1 docsSchema none)))
      (getVectorDistanceColumnName "emb") = some (DBValue.real distanceSentinel))
    ∧ (rowLookup (deserializeSpecialColumns (fun _ => DBValue.null) docsSchema "docs"
        (evalSelectRow (fun _ => none) [] (cmdSelectModel q0 docsSchema none)))
      (getVectorDistanceColumnName "emb") = some DBValue.null) :=
  ⟨(C5_distance_sentinel (fun _ => DBValue.null) docsSchema docsTable q1 none
      (fun _ => some (1 / 2 : ℚ)) [] "emb" colVec3 3 VecDtype.f32
      (by decide) (by decide) rfl (by decide) (by decide) rfl).1
      (VectorQuerySpec.mk [("emb", [1, 2, 3])] 1) [1, 2, 3] rfl (by decide),
   (C5_distance_sentinel (fun _ => DBValue.null) docsSchema docsTable q1 none
      (fun _ => none) [] "emb" colVec3 3 VecDtype.f32
      (by decide) (by decide) rfl (by decide) (by decide) rfl).1
      (VectorQuerySpec.mk [("emb", [1, 2, 3])] 1) [1, 2, 3] rfl (by decide),
   (C5_distance_sentinel (fun _ => DBValue.null) docsSchema docsTable q0 none
      (fun _ => none) [] "emb" colVec3 3 VecDtype.f32
      (by decide) (by decide) rfl (by decide) (by decide) rfl).2 rfl⟩

/-! ## C2: mutex serialization -/

theorem mutexWrap_eq (body : List DBAction) :
    mutexWrap body = DBAction.lock :: (body ++ [DBAction.unlock]) := rfl

theorem mutexWrap_ne_nil (body : List DBAction) : mutexWrap body ≠ [] := by
  rw [mutexWrap_eq]
  exact List.cons_ne_nil _ _

theorem drop_pos_ne_self {α : Type} (l : List α) (h : l ≠ []) {j : Nat} (hj : 0 < j) :
    l.drop j ≠ l := by
  intro he
  have hlen := congrArg List.length he
  rw [List.length_drop] at hlen
  have hpos : 0 < l.length := List.length_pos.mpr h
  omega

theorem drop_cons_tail {α : Type} {l : List α} {k : Nat} {a : α} {rest : List α}
    (h : l.drop k = a :: rest) : l.drop (k + 1) = rest := by
  rw [← List.tail_drop, h]
  rfl

theorem suffix_after_unlock (body : List DBAction)
    (hplain : ∀ a ∈ body, a ≠ DBAction.unlock) :
    ∀ (j : Nat) (rest : List DBAction),
      (body ++ [DBAction.unlock]).drop j = DBAction.unlock :: rest → rest = [] := by
  induction body with
  | nil =>
    intro j rest h
    cases j with
    | zero =>
      injection h with h1 h2
      exact h2.symm
    | succ j =>
      rw [List.nil_append, List.drop_succ_cons, List.drop_nil] at h
      cases h
  | cons b tb ih =>
    intro j rest h
    cases j with
    | zero =>
      rw [List.cons_append, List.drop_zero] at h
      injection h with h1 h2
      exact absurd h1 (hplain b (List.mem_cons_self b tb))
    | succ j =>
      rw [List.cons_append, List.drop_succ_cons] at h
      exact ih (fun a ha => hplain a (List.mem_cons_of_mem b ha)) j rest h

theorem mutexWrap_drop_unlock (body : List DBAction) (hplain : plainBody body) :
    ∀ (k : Nat) (rest : List DBAction),
      (mutexWrap body).drop k = DBAction.unlock :: rest → rest = [] := by
  intro k rest h
  rw [mutexWrap_eq] at h
  cases k with
  | zero =>
    rw [List.drop_zero] at h
    injection h with h1 h2
    exact DBAction.noConfusion h1
  | succ k =>
    rw [List.drop_succ_cons] at h
    exact suffix_after_unlock body (fun a ha => (hplain a ha).2) k rest h

theorem drop_last_of_append_singleton {α : Type} (l : List α) (x : α) :
    ∀ (j : Nat) (a : α) (rest : List α),
      (l ++ [x]).drop j = a :: rest → rest = [] → a = x := by
  induction l with
  | nil =>
    intro j a rest h hr
    cases j with
    | zero =>
      rw [List.nil_append, List.drop_zero] at h
      injection h with h1 h2
      exact h1.symm
    | succ j =>
      rw [List.nil_append, List.drop_succ_cons, List.drop_nil] at h
      cases h
  | cons b tb ih =>
    intro j a rest h hr
    cases j with
    | zero =>
      rw [List.cons_append, List.drop_zero] at h
      injection h with h1 h2
      rw [hr] at h2
      exact absurd h2 (List.append_ne_nil_of_right_ne_nil tb (List.cons_ne_nil x []))
    | succ j =>
      rw [List.cons_append, List.drop_succ_cons] at h
      exact ih j a rest h hr

theorem mutexWrap_drop_mid_ne_nil (body : List DBAction) :
    ∀ (k : Nat) (a : DBAction) (rest : List DBAction),
      (mutexWrap body).drop k = a :: rest → a ≠ DBAction.unlock → rest ≠ [] := by
  intro k a rest h ha
  rw [mutexWrap_eq] at h
  cases k with
  | zero =>
    rw [List.drop_zero] at h
    injection h with h1 h2
    rw [← h2]
    exact List.append_ne_nil_of_right_ne_nil body (List.cons_ne_nil _ [])
  | succ k =>
    rw [List.drop_succ_cons] at h
    intro hr
    exact ha (drop_last_of_append_singleton body DBAction.unlock k a rest h hr)

theorem head_not_lock {body : List DBAction} {a : DBAction} {rest : List DBAction}
    (ha : a ≠ DBAction.lock)
    (h : a :: rest = mutexWrap body ∨ a :: rest = ([] : List DBAction)) : False := by
  rcases h with h | h
  · rw [mutexWrap_eq] at h
    injection h with h1 _
    exact ha h1
  · cases h

theorem isConn_ne_lock {a : DBAction} (h : isConn a = true) : a ≠ DBAction.lock := by
  intro he
  rw [he] at h
  cases h

theorem isConn_ne_unlock {a : DBAction} (h : isConn a = true) : a ≠ DBAction.unlock := by
  intro he
  rw [he] at h
  cases h

theorem ne_mutexWrap_of_eq_tail {body rest : List DBAction}
    (h : rest = body ++ [DBAction.unlock]) : rest ≠ mutexWrap body := by
  subst h
  intro he
  have hl := congrArg List.length he
  rw [mutexWrap_eq] at hl
  simp at hl

theorem sideProg_mk (p0 p1 : List DBAction) (h : Option Bool) (tr : List (Bool × DBAction))
    (b : Bool) : sideProg (MState.mk p0 p1 h tr) b = cond b p1 p0 := rfl

theorem MInv_init (body0 body1 : List DBAction) :
    MInv body0 body1 (initState (mutexWrap body0) (mutexWrap body1)) := by
  refine ⟨⟨0, rfl⟩, ⟨0, rfl⟩, fun _ => ⟨Or.inl rfl, Or.inl rfl⟩, ?_, ?_,
    false, 0, 0, ?_, ?_, ?_⟩
  · intro h
    exact Option.noConfusion h
  · intro h
    exact Option.noConfusion h
  · simp [initState]
  · intro h
    exact absurd h (by omega)
  · intro h
    exact absurd h (by omega)

theorem MInv_step (body0 body1 : List DBAction) (h0 : plainBody body0) (h1 : plainBody body1)
    (s t : MState) (hstep : MStep s t) (hinv : MInv body0 body1 s) :
    MInv body0 body1 t := by
  obtain ⟨⟨k0, hk0⟩, ⟨k1, hk1⟩, hnone, hfalse, htrue, b, n, m, htr, hm, hn⟩ := hinv
  cases hstep with
  | lock0 rest p1 tr =>
    have hp0 : DBAction.lock :: rest = mutexWrap body0 := by
      rcases (hnone rfl).1 with h | h
      · exact h
      · exact absurd h (List.cons_ne_nil _ _)
    have hrest : rest = body0 ++ [DBAction.unlock] := by
      rw [mutexWrap_eq] at hp0
      exact (List.cons.inj hp0).2
    refine ⟨⟨1, hrest⟩, ⟨k1, hk1⟩, ?_, ?_, ?_, b, n, m, htr, ?_, ?_⟩
    · intro hx
      exact Option.noConfusion hx
    · intro _
      refine ⟨ne_mutexWrap_of_eq_tail hrest, ?_, (hnone rfl).2⟩
      rw [hrest]
      exact List.append_ne_nil_of_right_ne_nil body0 (List.cons_ne_nil _ _)
    · intro hx
      injection hx with hb
      exact Bool.noConfusion hb
    · cases b with
      | false =>
        intro hmm
        exact absurd (hm hmm) (List.cons_ne_nil _ _)
      | true => exact hm
    · cases b with
      | false =>
        intro _
        exact ne_mutexWrap_of_eq_tail hrest
      | true => exact hn
  | lock1 p0 rest tr =>
    have hp1 : DBAction.lock :: rest = mutexWrap body1 := by
      rcases (hnone rfl).2 with h | h
      · exact h
      · exact absurd h (List.cons_ne_nil _ _)
    have hrest : rest = body1 ++ [DBAction.unlock] := by
      rw [mutexWrap_eq] at hp1
      exact (List.cons.inj hp1).2
    refine ⟨⟨k0, hk0⟩, ⟨1, hrest⟩, ?_, ?_, ?_, b, n, m, htr, ?_, ?_⟩
    · intro hx
      exact Option.noConfusion hx
    · intro hx
      injection hx with hb
      exact Bool.noConfusion hb
    · intro _
      refine ⟨ne_mutexWrap_of_eq_tail hrest, ?_, (hnone rfl).1⟩
      rw [hrest]
      exact List.append_ne_nil_of_right_ne_nil body1 (List.cons_ne_nil _ _)
    · cases b with
      | true =>
        intro hmm
        exact absurd (hm hmm) (List.cons_ne_nil _ _)
      | false => exact hm
    · cases b with
      | true =>
        intro _
        exact ne_mutexWrap_of_eq_tail hrest
      | false => exact hn
  | unlock0 rest p1 tr =>
    have hrest : rest = [] := mutexWrap_drop_unlock body0 h0 k0 rest hk0.symm
    refine ⟨⟨(mutexWrap body0).length, ?_⟩, ⟨k1, hk1⟩, ?_, ?_, ?_, b, n, m, htr, ?_, ?_⟩
    · rw [List.drop_length]
      exact hrest
    · intro _
      exact ⟨Or.inr hrest, (hfalse rfl).2.2⟩
    · intro hx
      exact Option.noConfusion hx
    · intro hx
      exact Option.noConfusion hx
    · cases b with
      | false =>
        intro _
        exact hrest
      | true => exact hm
    · cases b with
      | false =>
        intro _
        rw [hrest]
        exact Ne.symm (mutexWrap_ne_nil body0)
      | true => exact hn
  | unlock1 p0 rest tr =>
    have hrest : rest = [] := mutexWrap_drop_unlock body1 h1 k1 rest hk1.symm
    refine ⟨⟨k0, hk0⟩, ⟨(mutexWrap body1).length, ?_⟩, ?_, ?_, ?_, b, n, m, htr, ?_, ?_⟩
    · rw [List.drop_length]
      exact hrest
    · intro _
      exact ⟨(htrue rfl).2.2, Or.inr hrest⟩
    · intro hx
      exact Option.noConfusion hx
    · intro hx
      exact Option.noConfusion hx
    · cases b with
      | true =>
        intro _
        exact hrest
      | false => exact hm
    · cases b with
      | true =>
        intro _
        rw [hrest]
        exact Ne.symm (mutexWrap_ne_nil body1)
      | false => exact hn
  | conn0 a rest p1 hh tr hconn =>
    cases hh with
    | none => exact (head_not_lock (isConn_ne_lock hconn) (hnone rfl).1).elim
    | some bb =>
      cases bb with
      | true => exact (head_not_lock (isConn_ne_lock hconn) (htrue rfl).2.2).elim
      | false =>
        have hd : (mutexWrap body0).drop (k0 + 1) = rest := drop_cons_tail hk0.symm
        have hrestne : rest ≠ mutexWrap body0 := by
          rw [← hd]
          exact drop_pos_ne_self (mutexWrap body0) (mutexWrap_ne_nil body0) (Nat.succ_pos k0)
        refine ⟨⟨k0 + 1, hd.symm⟩, ⟨k1, hk1⟩, ?_, ?_, ?_, ?_⟩
        · intro hx
          exact Option.noConfusion hx
        · intro _
          exact ⟨hrestne,
            mutexWrap_drop_mid_ne_nil body0 k0 a rest hk0.symm (isConn_ne_unlock hconn),
            (hfalse rfl).2.2⟩
        · intro hx
          injection hx with hb
          exact Bool.noConfusion hb
        · cases b with
          | false =>
            rcases Nat.eq_zero_or_pos m with hm0 | hmpos
            · subst hm0
              refine ⟨false, n + 1, 0, ?_, ?_, ?_⟩
              · rw [List.map_append, htr]
                simp [List.replicate_succ']
              · intro hmm
                exact absurd hmm (by omega)
              · intro _
                exact hrestne
            · exact absurd (hm hmpos) (List.cons_ne_nil a rest)
          | true =>
            rcases Nat.eq_zero_or_pos m with hm0 | hmpos
            · subst hm0
              rcases Nat.eq_zero_or_pos n with hn0 | hnpos
              · subst hn0
                have htr0 : tr.map Prod.fst = [] := by simpa using htr
                refine ⟨false, 1, 0, ?_, ?_, ?_⟩
                · rw [List.map_append, htr0]
                  simp
                · intro hmm
                  exact absurd hmm (by omega)
                · intro _
                  exact hrestne
              · have hp1nil : p1 = [] := by
                  rcases (hfalse rfl).2.2 with hx | hx
                  · exact absurd hx (hn hnpos)
                  · exact hx
                refine ⟨true, n, 1, ?_, ?_, ?_⟩
                · rw [List.map_append, htr]
                  simp
                · intro _
                  exact hp1nil
                · intro _
                  show p1 ≠ mutexWrap body1
                  rw [hp1nil]
                  exact Ne.symm (mutexWrap_ne_nil body1)
            · have hp1nil : p1 = [] := hm hmpos
              refine ⟨true, n, m + 1, ?_, fun _ => hp1nil, ?_⟩
              · rw [List.map_append, htr, List.append_assoc]
                simp [List.replicate_succ']
              · intro _
                show p1 ≠ mutexWrap body1
                rw [hp1nil]
                exact Ne.symm (mutexWrap_ne_nil body1)
  | conn1 p0 a rest hh tr hconn =>
    cases hh with
    | none => exact (head_not_lock (isConn_ne_lock hconn) (hnone rfl).2).elim
    | some bb =>
      cases bb with
      | false => exact (head_not_lock (isConn_ne_lock hconn) (hfalse rfl).2.2).elim
      | true =>
        have hd : (mutexWrap body1).drop (k1 + 1) = rest := drop_cons_tail hk1.symm
        have hrestne : rest ≠ mutexWrap body1 := by
          rw [← hd]
          exact drop_pos_ne_self (mutexWrap body1) (mutexWrap_ne_nil body1) (Nat.succ_pos k1)
        refine ⟨⟨k0, hk0⟩, ⟨k1 + 1, hd.symm⟩, ?_, ?_, ?_, ?_⟩
        · intro hx
          exact Option.noConfusion hx
        · intro hx
          injection hx with hb
          exact Bool.noConfusion hb
        · intro _
          exact ⟨hrestne,
            mutexWrap_drop_mid_ne_nil body1 k1 a rest hk1.symm (isConn_ne_unlock hconn),
            (htrue rfl).2.2⟩
        · cases b with
          | true =>
            rcases Nat.eq_zero_or_pos m with hm0 | hmpos
            · subst hm0
              refine ⟨true, n + 1, 0, ?_, ?_, ?_⟩
              · rw [List.map_append, htr]
                simp [List.replicate_succ']
              · intro hmm
                exact absurd hmm (by omega)
              · intro _
                exact hrestne
            · exact absurd (hm hmpos) (List.cons_ne_nil a rest)
          | false =>
            rcases Nat.eq_zero_or_pos m with hm0 | hmpos
            · subst hm0
              rcases Nat.eq_zero_or_pos n with hn0 | hnpos
              · subst hn0
                have htr0 : tr.map Prod.fst = [] := by simpa using htr
                refine ⟨true, 1, 0, ?_, ?_, ?_⟩
                · rw [List.map_append, htr0]
                  simp
                · intro hmm
                  exact absurd hmm (by omega)
                · intro _
                  exact hrestne
              · have hp0nil : p0 = [] := by
                  rcases (htrue rfl).2.2 with hx | hx
                  · exact absurd hx (hn hnpos)
                  · exact hx
                refine ⟨false, n, 1, ?_, ?_, ?_⟩
                · rw [List.map_append, htr]
                  simp
                · intro _
                  exact hp0nil
                · intro _
                  show p0 ≠ mutexWrap body0
                  rw [hp0nil]
                  exact Ne.symm (mutexWrap_ne_nil body0)
            · have hp0nil : p0 = [] := hm hmpos
              refine ⟨false, n, m + 1, ?_, fun _ => hp0nil, ?_⟩
              · rw [List.map_append, htr, List.append_assoc]
                simp [List.replicate_succ']
              · intro _
                show p0 ≠ mutexWrap body0
                rw [hp0nil]
                exact Ne.symm (mutexWrap_ne_nil body0)
  | silent0 a rest p1 hh tr hconn hl hu =>
    have hd : (mutexWrap body0).drop (k0 + 1) = rest := drop_cons_tail hk0.symm
    have hrestne : rest ≠ mutexWrap body0 := by
      rw [← hd]
      exact drop_pos_ne_self (mutexWrap body0) (mutexWrap_ne_nil body0) (Nat.succ_pos k0)
    refine ⟨⟨k0 + 1, hd.symm⟩, ⟨k1, hk1⟩, ?_, ?_, ?_, b, n, m, htr, ?_, ?_⟩
    · intro hx
      exact (head_not_lock hl (hnone hx).1).elim
    · intro hx
      exact ⟨hrestne, mutexWrap_drop_mid_ne_nil body0 k0 a rest hk0.symm hu,
        (hfalse hx).2.2⟩
    · intro hx
      exact (head_not_lock hl (htrue hx).2.2).elim
    · cases b with
      | false =>
        intro hmm
        exact absurd (hm hmm) (List.cons_ne_nil a rest)
      | true => exact hm
    · cases b with
      | false =>
        intro _
        exact hrestne
      | true => exact hn
  | silent1 p0 a rest hh tr hconn hl hu =>
    have hd : (mutexWrap body1).drop (k1 + 1) = rest := drop_cons_tail hk1.symm
    have hrestne : rest ≠ mutexWrap body1 := by
      rw [← hd]
      exact drop_pos_ne_self (mutexWrap body1) (mutexWrap_ne_nil body1) (Nat.succ_pos k1)
    refine ⟨⟨k0, hk0⟩, ⟨k1 + 1, hd.symm⟩, ?_, ?_, ?_, b, n, m, htr, ?_, ?_⟩
    · intro hx
      exact (head_not_lock hl (hnone hx).2).elim
    · intro hx
      exact (head_not_lock hl (hfalse hx).2.2).elim
    · intro hx
      exact ⟨hrestne, mutexWrap_drop_mid_ne_nil body1 k1 a rest hk1.symm hu,
        (htrue hx).2.2⟩
    · cases b with
      | true =>
        intro hmm
        exact absurd (hm hmm) (List.cons_ne_nil a rest)
      | false => exact hm
    · cases b with
      | true =>
        intro _
        exact hrestne
      | false => exact hn

theorem MInv_reach (body0 body1 : List DBAction) (h0 : plainBody body0)
    (h1 : plainBody body1) (s : MState)
    (h : MReach (initState (mutexWrap body0) (mutexWrap body1)) s) :
    MInv body0 body1 s := by
  induction h with
  | refl => exact MInv_init body0 body1
  | tail hreach hstep ih => exact MInv_step body0 body1 h0 h1 _ _ hstep ih

theorem mutexWrap_contiguous (body0 body1 : List DBAction) (h0 : plainBody body0)
    (h1 : plainBody body1) (s : MState)
    (h : MReach (initState (mutexWrap body0) (mutexWrap body1)) s) :
    contiguousTrace s.trace := by
  obtain ⟨-, -, -, -, -, b, n, m, htr, -, -⟩ := MInv_reach body0 body1 h0 h1 s h
  exact ⟨b, n, m, htr⟩

theorem execsLocked_one_of_plain (body : List DBAction) (hplain : plainBody body) :
    execsLocked 1 (body ++ [DBAction.unlock]) = true := by
  induction body with
  | nil => rfl
  | cons a t ih =>
    have ha := hplain a (List.mem_cons_self a t)
    have ht := ih (fun x hx => hplain x (List.mem_cons_of_mem a hx))
    rw [List.cons_append]
    cases a with
    | lock => exact absurd rfl ha.1
    | unlock => exact absurd rfl ha.2
    | connExec c => simpa [execsLocked, isConn] using ht
    | connExecTxn cs => simpa [execsLocked, isConn] using ht
    | emitInsert t2 rows => simpa [execsLocked, isConn] using ht
    | emitUpdate t2 rows => simpa [execsLocked, isConn] using ht
    | emitDelete t2 pks => simpa [execsLocked, isConn] using ht

theorem execsLocked_mutexWrap (body : List DBAction) (hplain : plainBody body) :
    execsLocked 0 (mutexWrap body) = true :=
  execsLocked_one_of_plain body hplain

theorem plainBody_nil : plainBody [] := by
  intro a ha
  exact absurd ha (List.not_mem_nil a)

theorem plainBody_append {b1 b2 : List DBAction} (h1 : plainBody b1) (h2 : plainBody b2) :
    plainBody (b1 ++ b2) := by
  intro a ha
  rcases List.mem_append.mp ha with h | h
  · exact h1 a h
  · exact h2 a h

theorem plainBody_cons {a0 : DBAction} {body : List DBAction}
    (ha : a0 ≠ DBAction.lock ∧ a0 ≠ DBAction.unlock) (h : plainBody body) :
    plainBody (a0 :: body) := by
  intro a ha2
  rcases List.mem_cons.mp ha2 with rfl | h2
  · exact ha
  · exact h a h2

theorem plainBody_map_of {α : Type} (f : α → DBAction)
    (hf : ∀ x, f x ≠ DBAction.lock ∧ f x ≠ DBAction.unlock) (l : List α) :
    plainBody (l.map f) := by
  intro a ha
  rcases List.mem_map.mp ha with ⟨x, _, rfl⟩
  exact hf x

theorem plainBody_flatMap {α : Type} (f : α → List DBAction) (l : List α)
    (h : ∀ x ∈ l, plainBody (f x)) : plainBody (l.flatMap f) := by
  intro a ha
  rcases List.mem_flatMap.mp ha with ⟨x, hx, hax⟩
  exact h x hx a hax

theorem plainBody_ite {c : Prop} [Decidable c] {b1 b2 : List DBAction}
    (h1 : plainBody b1) (h2 : plainBody b2) : plainBody (if c then b1 else b2) := by
  split
  · exact h1
  · exact h2

theorem plainBody_singleton {a0 : DBAction}
    (ha : a0 ≠ DBAction.lock ∧ a0 ≠ DBAction.unlock) : plainBody [a0] :=
  plainBody_cons ha plainBody_nil

theorem dbactions_plain_connExec (c : Cmd) :
    DBAction.connExec c ≠ DBAction.lock ∧ DBAction.connExec c ≠ DBAction.unlock :=
  ⟨fun h => DBAction.noConfusion h, fun h => DBAction.noConfusion h⟩

theorem dbactions_plain_connExecTxn (cs : List Cmd) :
    DBAction.connExecTxn cs ≠ DBAction.lock ∧ DBAction.connExecTxn cs ≠ DBAction.unlock :=
  ⟨fun h => DBAction.noConfusion h, fun h => DBAction.noConfusion h⟩

theorem dbactions_plain_emitInsert (t : String) (rows : List Row) :
    DBAction.emitInsert t rows ≠ DBAction.lock ∧
      DBAction.emitInsert t rows ≠ DBAction.unlock :=
  ⟨fun h => DBAction.noConfusion h, fun h => DBAction.noConfusion h⟩

theorem dbactions_plain_emitUpdate (t : String) (rows : List Row) :
    DBAction.emitUpdate t rows ≠ DBAction.lock ∧
      DBAction.emitUpdate t rows ≠ DBAction.unlock :=
  ⟨fun h => DBAction.noConfusion h, fun h => DBAction.noConfusion h⟩

theorem dbactions_plain_emitDelete (t : String) (pks : List DBValue) :
    DBAction.emitDelete t pks ≠ DBAction.lock ∧
      DBAction.emitDelete t pks ≠ DBAction.unlock :=
  ⟨fun h => DBAction.noConfusion h, fun h => DBAction.noConfusion h⟩

theorem plainBody_connExecs (cs : List Cmd) : plainBody (cs.map DBAction.connExec) :=
  plainBody_map_of _ dbactions_plain_connExec cs

theorem plainBody_upsertRowsBody (table : String) (rows : List Row) (schema : DBSchema) :
    plainBody ((chunksOfSucc 1023 rows).map (fun batch =>
      DBAction.connExecTxn (cmdUpsertMany table batch schema)) ++
      [DBAction.emitInsert table rows]) :=
  plainBody_append
    (plainBody_map_of _ (fun _batch => dbactions_plain_connExecTxn _) _)
    (plainBody_singleton (dbactions_plain_emitInsert table rows))

theorem execsLocked_upsertRows (table : String) (rows : List Row) (schema : DBSchema) :
    execsLocked 0 (upsertRowsProg table rows schema) = true :=
  execsLocked_mutexWrap _ (plainBody_upsertRowsBody table rows schema)

theorem execsLocked_createTables (schema : DBSchema) :
    execsLocked 0 (createTablesProg schema) = true := by
  unfold createTablesProg
  cases hc : cmdCreateTables schema with
  | error e => rfl
  | ok cmds => exact execsLocked_mutexWrap _ (plainBody_connExecs cmds)

theorem execsLocked_insertRow (table : String) (values : Row) (schema : DBSchema) :
    execsLocked 0 (insertRowProg table values schema) = true :=
  execsLocked_mutexWrap _ (plainBody_append (plainBody_connExecs _)
    (plainBody_singleton (dbactions_plain_emitInsert table [values])))

theorem execsLocked_insertRows (table : String) (rows : List Row) (schema : DBSchema) :
    execsLocked 0 (insertRowsProg table rows schema) = true :=
  execsLocked_mutexWrap _ (plainBody_append
    (plainBody_map_of _ (fun _batch => dbactions_plain_connExecTxn _) _)
    (plainBody_singleton (dbactions_plain_emitInsert table rows)))

theorem execsLocked_updateRows (table : String) (rows : List Row) (schema : DBSchema) :
    execsLocked 0 (updateRowsProg table rows schema) = true :=
  execsLocked_mutexWrap _ (plainBody_append (plainBody_connExecs _)
    (plainBody_singleton (dbactions_plain_emitUpdate table rows)))

theorem execsLocked_updateRow (table : String) (values : Row) (schema : DBSchema) :
    execsLocked 0 (updateRowProg table values schema) = true :=
  execsLocked_mutexWrap _ (plainBody_append
    (plainBody_append (plainBody_connExecs _)
      (plainBody_singleton (dbactions_plain_emitUpdate table [values])))
    (plainBody_singleton (dbactions_plain_emitUpdate table [values])))

theorem execsLocked_deleteRows (table : String) (pks : List DBValue) (schema : DBSchema) :
    execsLocked 0 (deleteRowsProg table pks schema) = true :=
  execsLocked_mutexWrap _ (plainBody_append (plainBody_connExecs _)
    (plainBody_singleton (dbactions_plain_emitDelete table pks)))

theorem execsLocked_deleteWhere (query : QueryDescr) (schema : DBSchema)
    (selectedPks : List DBValue) :
    execsLocked 0 (deleteWhereProg query schema selectedPks) = true :=
  execsLocked_mutexWrap _ (plainBody_cons (dbactions_plain_connExec _)
    (plainBody_append
      (plainBody_flatMap _ _ (fun batch _ =>
        plainBody_append (plainBody_connExecs _)
          (plainBody_singleton (dbactions_plain_emitDelete _ batch))))
      (plainBody_singleton (dbactions_plain_emitDelete _ selectedPks))))

theorem execsLocked_garbageCollect (schema : DBSchema) (table : Option String) :
    execsLocked 0 (garbageCollectProg schema table) = true :=
  execsLocked_mutexWrap _ (plainBody_connExecs _)

theorem execsLocked_dbStat (schema : DBSchema) :
    execsLocked 0 (dbStatProg schema) = true :=
  execsLocked_mutexWrap _ (plainBody_flatMap _ _ (fun _p _ =>
    plainBody_append
      (plainBody_append (plainBody_singleton (dbactions_plain_connExec _))
        (plainBody_ite (plainBody_singleton (dbactions_plain_connExec _)) plainBody_nil))
      (plainBody_ite (plainBody_singleton (dbactions_plain_connExec _)) plainBody_nil)))

theorem execsLocked_resolveForeignKeys (table : String) (rows : List Row)
    (schema : DBSchema) :
    execsLocked 0 (resolveForeignKeysProg table rows schema) = true := by
  unfold resolveForeignKeysProg
  cases hc : lookupKey schema table with
  | none => exact execsLocked_mutexWrap _ plainBody_nil
  | some ts => exact execsLocked_mutexWrap _ (plainBody_map_of _
      (fun col => dbactions_plain_connExec _) _)

/-- C2 counterexample: `Database.select` and `Database.selectByPrimaryKeys`
issue their connection calls WITHOUT taking the serialization mutex — at
mutex depth 0 their programs contain an unlocked connection call, refuting
the claim that every public method holds the mutex for its calls. -/
theorem C2_counterexample :
    execsLocked 0 (selectProg q0 docsSchema none) = false ∧
    execsLocked 0 (selectByPrimaryKeysProg "docs" docsSchema [DBValue.int 1]) = false :=
  ⟨rfl, rfl⟩

/-- C2 (amended): every public `Database` method EXCEPT `select`,
`selectOne`, `exists` and `selectByPrimaryKeys` performs all its connection
calls while holding the serialization mutex (its program's connection calls
all occur at positive mutex depth), and for two concurrently issued
`upsertRows` operations every state the two-operation scheduler can reach
from the initial state has a contiguous connection trace: all of one
operation's statements precede all of the other's. -/
theorem C2_mutex_serialization :
    (∀ schema, execsLocked 0 (createTablesProg schema) = true) ∧
    (∀ table values schema, execsLocked 0 (insertRowProg table values schema) = true) ∧
    (∀ table rows schema, execsLocked 0 (insertRowsProg table rows schema) = true) ∧
    (∀ table values schema, execsLocked 0 (upsertRowProg table values schema) = true) ∧
    (∀ table rows schema, execsLocked 0 (upsertRowsProg table rows schema) = true) ∧
    (∀ table values schema, execsLocked 0 (updateRowProg table values schema) = true) ∧
    (∀ table rows schema, execsLocked 0 (updateRowsProg table rows schema) = true) ∧
    (∀ table pk schema, execsLocked 0 (deleteRowProg table pk schema) = true) ∧
    (∀ table pks schema, execsLocked 0 (deleteRowsProg table pks schema) = true) ∧
    (∀ query schema pks, execsLocked 0 (deleteWhereProg query schema pks) = true) ∧
    (∀ schema table, execsLocked 0 (garbageCollectProg schema table) = true) ∧
    (∀ schema, execsLocked 0 (dbStatProg schema) = true) ∧
    (∀ table rows schema, execsLocked 0 (resolveForeignKeysProg table rows schema) = true) ∧
    (∀ tableA rowsA schemaA tableB rowsB schemaB s,
      MReach (initState (upsertRowsProg tableA rowsA schemaA)
        (upsertRowsProg tableB rowsB schemaB)) s →
      contiguousTrace s.trace) := by
  refine ⟨execsLocked_createTables, execsLocked_insertRow, execsLocked_insertRows,
    fun table values schema => execsLocked_upsertRows table [values] schema,
    execsLocked_upsertRows, execsLocked_updateRow, execsLocked_updateRows,
    fun table pk schema => execsLocked_deleteRows table [pk] schema,
    execsLocked_deleteRows, execsLocked_deleteWhere, execsLocked_garbageCollect,
    execsLocked_dbStat, execsLocked_resolveForeignKeys, ?_⟩
  intro tableA rowsA schemaA tableB rowsB schemaB s hr
  exact mutexWrap_contiguous _ _ (plainBody_upsertRowsBody tableA rowsA schemaA)
    (plainBody_upsertRowsBody tableB rowsB schemaB) s hr

/-- C2 witness: the amended theorem applied at concrete inputs — the
`upsertRows` program on the notes fixture is fully locked, and the initial
state of two concurrent `upsertRows` operations has a contiguous trace. -/
theorem C2_witness :
    execsLocked 0 (upsertRowsProg "notes" [noteRow1] notesSchema) = true ∧
    contiguousTrace (initState (upsertRowsProg "notes" [noteRow1] notesSchema)
      (upsertRowsProg "notes" [noteRow2] notesSchema)).trace :=
  ⟨C2_mutex_serialization.2.2.2.2.1 "notes" [noteRow1] notesSchema,
   C2_mutex_serialization.2.2.2.2.2.2.2.2.2.2.2.2.2 "notes" [noteRow1] notesSchema
     "notes" [noteRow2] notesSchema _ Relation.ReflTransGen.refl⟩
